import Mathlib

/-!
Verification development for the gym-locm battle engine
(`gym_locm/engine.py` and `gym_locm/envs/battle.py`).

The Python engine is shallowly embedded: card instances, players and the
game state become Lean structures; the mutating methods become pure
functions from states to states; Python exceptions become explicit error
values threaded through the return types.  Python numbers are modelled as
`Int` (they are unbounded machine integers), instance identifiers as `Nat`.
Exceptions that the engine raises and later catches are returned alongside
the state they leave behind, because Python exceptions do not roll back
mutations performed before the raise.
-/

namespace Locm

/-- Keyword abilities of cards: Breakthrough, Charge, Drain, Guard,
Lethal, Ward (engine.py stores them as the characters B, C, D, G, L, W). -/
inductive Ability
  | B | C | D | G | L | W
deriving DecidableEq, Repr

/-- Keyword set of a card, engine.py line 141: the set of ability
characters present on the card.  Modelled as one membership flag per
ability. -/
structure Keywords where
  b : Bool := false
  c : Bool := false
  d : Bool := false
  g : Bool := false
  l : Bool := false
  w : Bool := false
deriving DecidableEq, Repr

/-- Membership in the keyword set (`Card.has_ability`, engine.py
lines 147-148). -/
def Keywords.hasAbility (k : Keywords) : Ability → Bool
  | .B => k.b
  | .C => k.c
  | .D => k.d
  | .G => k.g
  | .L => k.l
  | .W => k.w

/-- Set union of keyword sets (`target.keywords.union(origin.keywords)`,
engine.py line 846). -/
def Keywords.union (k k' : Keywords) : Keywords :=
  ⟨k.b || k'.b, k.c || k'.c, k.d || k'.d, k.g || k'.g, k.l || k'.l, k.w || k'.w⟩

/-- Set difference of keyword sets
(`target.keywords.difference(origin.keywords)`, engine.py line 866). -/
def Keywords.difference (k k' : Keywords) : Keywords :=
  ⟨k.b && !k'.b, k.c && !k'.c, k.d && !k'.d, k.g && !k'.g,
   k.l && !k'.l, k.w && !k'.w⟩

/-- Removal of one ability (`Creature.remove_ability`, engine.py
lines 204-205, a `set.discard`). -/
def Keywords.remove (k : Keywords) : Ability → Keywords
  | .B => { k with b := false }
  | .C => { k with c := false }
  | .D => { k with d := false }
  | .G => { k with g := false }
  | .L => { k with l := false }
  | .W => { k with w := false }

/-- Addition of one ability (`Creature.add_ability`, engine.py
lines 207-208, a `set.add`). -/
def Keywords.add (k : Keywords) : Ability → Keywords
  | .B => { k with b := true }
  | .C => { k with c := true }
  | .D => { k with d := true }
  | .G => { k with g := true }
  | .L => { k with l := true }
  | .W => { k with w := true }

/-- Card variants: the Python classes Creature, GreenItem, RedItem,
BlueItem (engine.py lines 196-253); dynamic `isinstance` dispatch becomes
matching on this tag. -/
inductive CardType
  | creature | itemGreen | itemRed | itemBlue
deriving DecidableEq, Repr

/-- Card instance (engine.py classes `Card` lines 131-193 and `Creature`
lines 196-237).  The creature-only mutable flags `is_dead`, `can_attack`
and `has_attacked_this_turn` live in the same structure and are only
meaningful when `ctype = creature`, mirroring the Python subclass. -/
structure Card where
  id : Nat
  instance_id : Nat
  ctype : CardType
  cost : Int
  attack : Int
  defense : Int
  keywords : Keywords
  player_hp : Int
  enemy_hp : Int
  card_draw : Int
  is_dead : Bool := false
  can_attack : Bool := false
  has_attacked_this_turn : Bool := false
deriving DecidableEq, Repr

/-- `Creature.able_to_attack` (engine.py lines 210-212): the creature has
not attacked this turn, and either may already attack or has Charge. -/
def Card.able_to_attack (c : Card) : Bool :=
  !c.has_attacked_this_turn && (c.can_attack || c.keywords.hasAbility .C)

/-- `Creature.damage` (engine.py lines 214-228).  Returns the updated
creature together with `some amount` (the value the Python method
returns), or `none` when the method raises `WardShieldError`; in the
latter case the returned creature already has Ward stripped, because the
Python code removes the ability before raising. -/
def Creature.damage (c : Card) (amount : Int) (lethal : Bool) :
    Card × Option Int :=
  if amount ≤ 0 then
    (c, some 0)
  else if c.keywords.hasAbility .W then
    ({ c with keywords := c.keywords.remove .W }, none)
  else
    let c := { c with defense := c.defense - amount }
    let c := if lethal || c.defense ≤ 0 then { c with is_dead := true } else c
    (c, some amount)

/-- Action kinds (engine.py lines 37-42). -/
inductive ActionType
  | pick | summon | attack | use | pass
deriving DecidableEq, Repr

/-- Action record (engine.py lines 256-269).  The origin is an instance
identifier (battle) or a slot index (draft); the target is a lane number
for summons and an instance identifier for attacks and item uses, `none`
standing for the Python `None`.  Python compares actions field by field,
which `DecidableEq` mirrors. -/
structure Action where
  atype : ActionType
  origin : Option Nat := none
  target : Option Nat := none
deriving DecidableEq, Repr

/-- Errors raised by battle resolution (gym_locm exceptions caught at
engine.py lines 701-702). -/
inductive EngineError
  | notEnoughMana | malformedAction | fullLane | invalidCard
deriving DecidableEq, Repr

/-- Errors raised by `Player.draw` (engine.py lines 80 and 83). -/
inductive DrawError
  | emptyDeck | fullHand
deriving DecidableEq, Repr

/-- Turn order (engine.py lines 24-29). -/
inductive PlayerOrder
  | first | second
deriving DecidableEq, Repr

/-- `PlayerOrder.opposing` (engine.py lines 28-29). -/
def PlayerOrder.opposing : PlayerOrder → PlayerOrder
  | .first => .second
  | .second => .first

/-- Board lanes (engine.py lines 32-34). -/
inductive Lane
  | left | right
deriving DecidableEq, Repr

/-- Numeric value of a lane, as stored in summon actions (Lane is a
Python IntEnum). -/
def Lane.toNat : Lane → Nat
  | .left => 0
  | .right => 1

/-- Game phases (engine.py lines 18-21). -/
inductive Phase
  | draft | battle | ended
deriving DecidableEq, Repr

/-- Player state (engine.py lines 58-75). -/
structure Player where
  id : PlayerOrder
  health : Int := 30
  base_mana : Int := 0
  bonus_mana : Int := 0
  mana : Int := 0
  next_rune : Int := 25
  bonus_draw : Int := 0
  last_drawn : Int := 0
  deck : List Card := []
  hand : List Card := []
  lanes : List Card × List Card := ([], [])
  actions : List Action := []
deriving Repr, DecidableEq

/-- Lane access `lanes[lane]` on the pair of lanes. -/
def Player.lane (p : Player) : Lane → List Card
  | .left => p.lanes.1
  | .right => p.lanes.2

/-- Update of one lane of a player. -/
def Player.setLane (p : Player) (ln : Lane) (cs : List Card) : Player :=
  match ln with
  | .left => { p with lanes := (cs, p.lanes.2) }
  | .right => { p with lanes := (p.lanes.1, cs) }

/-- Inner loop of `Player.draw` (engine.py lines 77-85): the Python
method loops `amount` times; each iteration first raises `EmptyDeckError`
on an empty deck, then `FullHandError` on a hand of 8 or more cards, and
otherwise pops the last deck card into the hand.  A raise aborts the
remaining iterations but keeps the cards already drawn, so the state at
the raise is returned alongside the error. -/
def Player.drawLoop (p : Player) : Nat → Player × Option DrawError
  | 0 => (p, none)
  | n + 1 =>
    match p.deck.getLast? with
    | none => (p, some .emptyDeck)
    | some card =>
      if p.hand.length ≥ 8 then
        (p, some .fullHand)
      else
        Player.drawLoop
          { p with hand := p.hand ++ [card], deck := p.deck.dropLast } n

/-- `Player.draw` (engine.py lines 77-85); `range(amount)` of a negative
amount is empty, hence the `Int.toNat`. -/
def Player.draw (p : Player) (amount : Int := 1) : Player × Option DrawError :=
  p.drawLoop amount.toNat

/-- Rune loop of `Player.damage` (engine.py lines 90-92): while the health
is at or below the next rune threshold and that threshold is positive,
the threshold drops by 5 and one bonus draw is granted. -/
def Player.runeLoop (health : Int) (next_rune bonus_draw : Int) : Int × Int :=
  if health ≤ next_rune ∧ 0 < next_rune then
    Player.runeLoop health (next_rune - 5) (bonus_draw + 1)
  else
    (next_rune, bonus_draw)
termination_by next_rune.toNat
decreasing_by omega

/-- `Player.damage` (engine.py lines 87-94): subtracts the amount from
health, runs the rune loop, and returns the amount dealt. -/
def Player.damage (p : Player) (amount : Int) : Player × Int :=
  let health := p.health - amount
  let rb := Player.runeLoop health p.next_rune p.bonus_draw
  ({ p with health := health, next_rune := rb.1, bonus_draw := rb.2 }, amount)

/-- Modelled from the spec: `has_enough_mana` lives in gym_locm/helpers.py,
which is not among the sources; per the spec a card is affordable when its
cost is at most the current mana of the acting player. -/
def has_enough_mana (available_mana : Int) (card : Card) : Bool :=
  card.cost ≤ available_mana

/-- Game state (engine.py lines 300-338).  The seeded random generator,
the draft reveal schedule and the two lazy caches of legal actions are not
carried: the embedding recomputes action lists and masks as pure
functions, and no theorem below depends on the draft internals. -/
structure State where
  items : Bool
  phase : Phase
  turn : Int
  was_last_action_invalid : Bool
  players : Player × Player
  current : PlayerOrder
  winner : Option PlayerOrder
  instance_counter : Nat
deriving Repr, DecidableEq

/-- Indexing `self.players[order]`. -/
def State.player (s : State) : PlayerOrder → Player
  | .first => s.players.1
  | .second => s.players.2

/-- `State.current_player` (engine.py lines 331-333). -/
def State.current_player (s : State) : Player :=
  s.player s.current

/-- `State.opposing_player` (engine.py lines 335-337). -/
def State.opposing_player (s : State) : Player :=
  s.player s.current.opposing

/-- Writes one player back into the pair. -/
def State.setPlayerAt (s : State) : PlayerOrder → Player → State
  | .first, p => { s with players := (p, s.players.2) }
  | .second, p => { s with players := (s.players.1, p) }

/-- Writes the acting player back into the state. -/
def State.setCurrent (s : State) (p : Player) : State :=
  s.setPlayerAt s.current p

/-- Writes the non-acting player back into the state. -/
def State.setOpposing (s : State) (p : Player) : State :=
  s.setPlayerAt s.current.opposing p

/-- `State._find_card` (engine.py lines 643-660): scans the hands and the
four lanes in source order for the first card with the given instance
identifier; `none` models the raised `InvalidCardError`. -/
def State.findCard (s : State) (instance_id : Nat) : Option Card :=
  (s.current_player.hand ++ s.opposing_player.hand ++
   s.current_player.lanes.1 ++ s.current_player.lanes.2 ++
   s.opposing_player.lanes.1 ++ s.opposing_player.lanes.2).find?
    (fun card => card.instance_id = instance_id)

/-- Writes a mutated card instance back over every list entry bearing its
instance identifier: the Python engine mutates one shared object aliased
inside a lane list, which under the games-wide uniqueness of instance
identifiers is exactly an update of the matching entry. -/
def updateByIid (l : List Card) (c : Card) : List Card :=
  l.map (fun x => if x.instance_id = c.instance_id then c else x)

/-- `State._do_summon` (engine.py lines 718-748).  All raises happen
before any mutation; on success the creature moves from hand to lane with
`can_attack` cleared, the on-play effects apply, and mana is debited by
the cost. -/
def State.doSummon (s : State) (origin : Card) (target : Option Lane) :
    State × Option EngineError :=
  let cp := s.current_player
  if origin.cost > cp.mana then
    (s, some .notEnoughMana)
  else if origin.ctype ≠ .creature then
    (s, some .malformedAction)
  else
    match target with
    | none => (s, some .malformedAction)
    | some ln =>
      if (cp.lane ln).length ≥ 3 then
        (s, some .fullLane)
      else if !(cp.hand.any (fun c => c.instance_id = origin.instance_id)) then
        (s, some .malformedAction)
      else
        let cp := { cp with
          hand := cp.hand.eraseP (fun c => c.instance_id == origin.instance_id) }
        let origin := { origin with can_attack := false }
        let cp := cp.setLane ln (cp.lane ln ++ [origin])
        let cp := { cp with
          bonus_draw := cp.bonus_draw + origin.card_draw,
          health := cp.health + origin.player_hp }
        let op := s.opposing_player
        let op := { op with health := op.health + origin.enemy_hp }
        let cp := { cp with mana := cp.mana - origin.cost }
        ((s.setCurrent cp).setOpposing op, none)

/-- `State._do_attack` (engine.py lines 750-815).  The origin and target
are the card values resolved by `_find_card`; their in-place mutations are
written back into the lanes through `updateByIid`.  Note that the attack
path performs no mana check and no mana debit, and that a Ward shield on
either side zeroes the `damage_dealt` variable that Drain and
Breakthrough later read. -/
def State.doAttack (s : State) (origin target : Option Card) :
    State × Option EngineError :=
  match origin with
  | none => (s, some .malformedAction)
  | some origin =>
    if origin.ctype ≠ .creature then
      (s, some .malformedAction)
    else
      let cp := s.current_player
      let op := s.opposing_player
      let originLane? : Option Lane :=
        if cp.lanes.1.any (fun c => c.instance_id = origin.instance_id) then
          some .left
        else if cp.lanes.2.any (fun c => c.instance_id = origin.instance_id) then
          some .right
        else
          none
      match originLane? with
      | none => (s, some .malformedAction)
      | some ln =>
        let guard_creatures :=
          (op.lane ln).filter (fun c => c.keywords.hasAbility .G)
        let valid_targets : List (Option Nat) :=
          if guard_creatures.length > 0 then
            guard_creatures.map (fun c => some c.instance_id)
          else
            none :: (op.lane ln).map (fun c => some c.instance_id)
        if !(valid_targets.contains (target.map (·.instance_id))) then
          (s, some .malformedAction)
        else if !origin.able_to_attack then
          (s, some .malformedAction)
        else
          match target with
          | none =>
            let pd := op.damage origin.attack
            let op1 := pd.1
            let damage_dealt := pd.2
            let cp1 :=
              if origin.keywords.hasAbility .D then
                { cp with health := cp.health + damage_dealt }
              else cp
            let o2 := { origin with has_attacked_this_turn := true }
            let cp2 := { cp1 with
              lanes := (updateByIid cp1.lanes.1 o2, updateByIid cp1.lanes.2 o2) }
            ((s.setCurrent cp2).setOpposing op1, none)
          | some tCard =>
            if tCard.ctype = .creature then
              let target_defense := tCard.defense
              let dr1 :=
                Creature.damage tCard origin.attack (origin.keywords.hasAbility .L)
              let t1 := dr1.1
              let dd0 : Int := (dr1.2).getD 0
              let dr2 := Creature.damage origin t1.attack (t1.keywords.hasAbility .L)
              let o1 := dr2.1
              let damage_dealt := if (dr2.2).isSome then dd0 else 0
              let op1 := { op with
                lanes := (updateByIid op.lanes.1 t1, updateByIid op.lanes.2 t1) }
              let excess_damage := damage_dealt - target_defense
              let op2 :=
                if o1.keywords.hasAbility .B ∧ excess_damage > 0 then
                  (op1.damage excess_damage).1
                else op1
              let cp1 :=
                if o1.keywords.hasAbility .D then
                  { cp with health := cp.health + damage_dealt }
                else cp
              let o2 := { o1 with has_attacked_this_turn := true }
              let cp2 := { cp1 with
                lanes := (updateByIid cp1.lanes.1 o2, updateByIid cp1.lanes.2 o2) }
              ((s.setCurrent cp2).setOpposing op2, none)
            else
              (s, some .malformedAction)

/-- `State._do_use` (engine.py lines 817-915).  The mana check and the
creature-or-none target check come first, but the item is removed from the
hand BEFORE the per-colour target validation, so the errors raised in the
green, red, blue and not-an-item branches leave the state with the hand
removal already applied. -/
def State.doUse (s : State) (origin : Card) (target : Option Card) :
    State × Option EngineError :=
  let cp := s.current_player
  let op := s.opposing_player
  if origin.cost > cp.mana then
    (s, some .notEnoughMana)
  else if target.isSome ∧ (target.getD origin).ctype ≠ .creature then
    (s, some .malformedAction)
  else if !(cp.hand.any (fun c => c.instance_id = origin.instance_id)) then
    (s, some .malformedAction)
  else
    let cp := { cp with
      hand := cp.hand.eraseP (fun c => c.instance_id == origin.instance_id) }
    let s1 := s.setCurrent cp
    match origin.ctype with
    | .itemGreen =>
      let is_own_creature :=
        match target with
        | none => false
        | some t =>
          cp.lanes.1.any (fun c => c.instance_id = t.instance_id) ||
          cp.lanes.2.any (fun c => c.instance_id = t.instance_id)
      match target with
      | none => (s1, some .malformedAction)
      | some t =>
        if !is_own_creature then
          (s1, some .malformedAction)
        else
          let t1 := { t with
            attack := t.attack + origin.attack,
            defense := t.defense + origin.defense,
            keywords := t.keywords.union origin.keywords }
          let t2 : Card := if t1.defense ≤ 0 then { t1 with is_dead := true } else t1
          let cp := { cp with
            lanes := (updateByIid cp.lanes.1 t2, updateByIid cp.lanes.2 t2) }
          let cp := { cp with
            bonus_draw := cp.bonus_draw + origin.card_draw,
            health := cp.health + origin.player_hp }
          let op := { op with health := op.health + origin.enemy_hp }
          let cp := { cp with mana := cp.mana - origin.cost }
          ((s.setCurrent cp).setOpposing op, none)
    | .itemRed =>
      let is_opp_creature :=
        match target with
        | none => false
        | some t =>
          op.lanes.1.any (fun c => c.instance_id = t.instance_id) ||
          op.lanes.2.any (fun c => c.instance_id = t.instance_id)
      match target with
      | none => (s1, some .malformedAction)
      | some t =>
        if !is_opp_creature then
          (s1, some .malformedAction)
        else
          let t1 := { t with
            attack := t.attack + origin.attack,
            keywords := t.keywords.difference origin.keywords }
          let dr := Creature.damage t1 (-origin.defense) false
          let t2 := dr.1
          let t3 : Card := if t2.defense ≤ 0 then { t2 with is_dead := true } else t2
          let op := { op with
            lanes := (updateByIid op.lanes.1 t3, updateByIid op.lanes.2 t3) }
          let cp := { cp with
            bonus_draw := cp.bonus_draw + origin.card_draw,
            health := cp.health + origin.player_hp }
          let op := { op with health := op.health + origin.enemy_hp }
          let cp := { cp with mana := cp.mana - origin.cost }
          ((s.setCurrent cp).setOpposing op, none)
    | .itemBlue =>
      let is_opp_creature :=
        match target with
        | none => false
        | some t =>
          op.lanes.1.any (fun c => c.instance_id = t.instance_id) ||
          op.lanes.2.any (fun c => c.instance_id = t.instance_id)
      if target.isSome ∧ !is_opp_creature then
        (s1, some .malformedAction)
      else
        match target with
        | some t =>
          let t1 := { t with
            attack := t.attack + origin.attack,
            keywords := t.keywords.difference origin.keywords }
          let dr := Creature.damage t1 (-origin.defense) false
          let t2 := dr.1
          let t3 : Card := if t2.defense ≤ 0 then { t2 with is_dead := true } else t2
          let op := { op with
            lanes := (updateByIid op.lanes.1 t3, updateByIid op.lanes.2 t3) }
          let cp := { cp with
            bonus_draw := cp.bonus_draw + origin.card_draw,
            health := cp.health + origin.player_hp }
          let op := { op with health := op.health + origin.enemy_hp }
          let cp := { cp with mana := cp.mana - origin.cost }
          ((s.setCurrent cp).setOpposing op, none)
        | none =>
          let op := (op.damage (-origin.defense)).1
          let cp := { cp with
            bonus_draw := cp.bonus_draw + origin.card_draw,
            health := cp.health + origin.player_hp }
          let op := { op with health := op.health + origin.enemy_hp }
          let cp := { cp with mana := cp.mana - origin.cost }
          ((s.setCurrent cp).setOpposing op, none)
    | .creature =>
      (s1, some .malformedAction)

/-- Dead-creature sweep of one lane (engine.py lines 705-709): the Python
code removes dead creatures while iterating the same list with a plain
for loop, so after a removal the element that slid into the freed slot is
skipped; the recursion reproduces that iterator behaviour exactly,
`remove` matching the first entry with the same instance identifier. -/
def sweepLane (l : List Card) (i : Nat) : List Card :=
  if h : i < l.length then
    let c := l.get ⟨i, h⟩
    if c.is_dead then
      sweepLane (l.eraseP (fun x => x.instance_id == c.instance_id)) (i + 1)
    else
      sweepLane l (i + 1)
  else
    l
termination_by l.length - i
decreasing_by
  · have hm : (l.get ⟨i, h⟩) ∈ l := l.get_mem i h
    have hp : (fun x => x.instance_id == (l.get ⟨i, h⟩).instance_id)
        (l.get ⟨i, h⟩) = true := by simp
    have hlen := @List.length_eraseP_add_one Card
      (fun x => x.instance_id == (l.get ⟨i, h⟩).instance_id) l
      (l.get ⟨i, h⟩) hm hp
    omega
  · omega

/-- Dead sweep over both lanes of both players (engine.py
lines 705-709). -/
def State.sweepDead (s : State) : State :=
  let f := fun (p : Player) =>
    { p with lanes := (sweepLane p.lanes.1 0, sweepLane p.lanes.2 0) }
  { s with players := (f s.players.1, f s.players.2) }

/-- End-of-action health check (engine.py lines 711-716): the first
player is checked before the second. -/
def State.checkEnd (s : State) : State :=
  if s.players.1.health ≤ 0 then
    { s with phase := .ended, winner := some .second }
  else if s.players.2.health ≤ 0 then
    { s with phase := .ended, winner := some .first }
  else
    s

/-- Try block of `State._act_on_battle` (engine.py lines 671-700): the
origin is resolved through `_find_card`, the target is coerced (summon) or
resolved (attack, use), and the matching resolver runs.  The result is the
state the block leaves behind paired with the error it raises, if any;
the overall `Option` is `none` when the Python code would die on an
exception that the handler at lines 701-702 does not catch: `Lane(t)` for
a target outside 0..1 raises `ValueError`, and a summon or use whose
origin is `None` dereferences `None.cost`. -/
def State.tryBattleAction (s : State) (a : Action) :
    Option (State × Option EngineError) :=
  let resolvedOrigin : Except EngineError (Option Card) :=
    match a.origin with
    | none => .ok none
    | some iid =>
      match s.findCard iid with
      | some c => .ok (some c)
      | none => .error .invalidCard
  match resolvedOrigin with
    | .error e => some (s, some e)
    | .ok origin? =>
      match a.atype with
      | .summon =>
        let laneTarget? : Option (Option Lane) :=
          match a.target with
          | none => some none
          | some 0 => some (some .left)
          | some 1 => some (some .right)
          | some _ => none
        match laneTarget? with
        | none => none
        | some laneTarget =>
          match origin? with
          | none => none
          | some origin => some (s.doSummon origin laneTarget)
      | .attack =>
        match a.target with
        | none => some (s.doAttack origin? none)
        | some iid =>
          match s.findCard iid with
          | some t => some (s.doAttack origin? (some t))
          | none => some (s, some .invalidCard)
      | .use =>
        match a.target with
        | none =>
          match origin? with
          | none => none
          | some origin => some (s.doUse origin none)
        | some iid =>
          match s.findCard iid with
          | some t =>
            match origin? with
            | none => none
            | some origin => some (s.doUse origin (some t))
          | none => some (s, some .invalidCard)
      | .pass => some (s, none)
      | .pick => some (s, some .malformedAction)

/-- Completion of `State._act_on_battle`: the except clause of
lines 701-703 sets the invalid-action flag on a caught error, a success
appends the action to the acting player log (lines 697-700), and both
then run the dead sweep of lines 705-709 and the health check of
lines 711-716. -/
def State.actOnBattle (s : State) (a : Action) : Option State :=
  match s.tryBattleAction a with
  | none => none
  | some (s1, err?) =>
    let s2 :=
      match err? with
      | some _ => { s1 with was_last_action_invalid := true }
      | none =>
        s1.setCurrent
          { s1.current_player with actions := s1.current_player.actions ++ [a] }
    some s2.sweepDead.checkEnd

/-- `State._next_turn` (engine.py lines 583-596). -/
def State.nextTurn (s : State) : State :=
  if s.current = .first then
    { s with current := .second }
  else
    let s := { s with current := .first, turn := s.turn + 1 }
    if s.turn > 30 ∧ s.phase = .draft then
      { s with phase := .battle, turn := 1 }
    else
      s

/-- `State._new_battle_turn` (engine.py lines 605-641): refreshes the
attack flags of the acting player board, resets one-shot bonus mana,
grows base mana up to 12, recomputes mana, empties the deck past turn 50,
draws `1 + bonus_draw` cards with the full-hand error swallowed and the
empty-deck error converted into burn damage, then resets the bonus draw
and records the number of cards drawn. -/
def State.newBattleTurn (s : State) : State :=
  let refresh := fun (c : Card) =>
    { c with can_attack := true, has_attacked_this_turn := false }
  let cp := s.current_player
  let cp := { cp with lanes := (cp.lanes.1.map refresh, cp.lanes.2.map refresh) }
  let cp :=
    if cp.base_mana > 0 ∧ cp.mana = 0 then { cp with bonus_mana := 0 } else cp
  let cp :=
    if cp.base_mana < 12 then { cp with base_mana := cp.base_mana + 1 } else cp
  let cp := { cp with mana := cp.base_mana + cp.bonus_mana }
  let amount_in_hand : Int := cp.hand.length
  let amount_to_draw := 1 + cp.bonus_draw
  let cp := if s.turn > 50 then { cp with deck := [] } else cp
  let de := cp.draw amount_to_draw
  let cp := de.1
  let cp :=
    match de.2 with
    | some .emptyDeck => (cp.damage (cp.health - cp.next_rune)).1
    | _ => cp
  let cp := { cp with
    bonus_draw := 0,
    last_drawn := (cp.hand.length : Int) - amount_in_hand }
  s.setCurrent cp

/-- `State.act` (engine.py lines 509-533).  The invalid-action flag is
cleared, then the phase dispatch runs: in Battle the action resolves and a
Pass additionally advances the turn; in Ended neither branch fires, so the
call silently returns with the state otherwise untouched.  The Draft
branch performs the seeded-RNG draft and battle setup; it is not
modelled, and every theorem below applies `act` to Battle- or Ended-phase
states only. -/
def State.act (s : State) (a : Action) : Option State :=
  let s1 := { s with was_last_action_invalid := false }
  match s1.phase with
  | .draft => some s1
  | .battle =>
    match s1.actOnBattle a with
    | none => none
    | some s2 =>
      if a.atype = .pass then some s2.nextTurn.newBattleTurn else some s2
  | .ended => some s1

/-- Error raised by the gym environment wrapper (gym_locm exceptions). -/
inductive EnvError
  | gameIsEnded
deriving DecidableEq, Repr

/-- Modelled from the spec: `_battle_is_finished` is defined in
gym_locm/envs/base_env.py, which is not among the sources; per the spec it
holds exactly when the game reached the Ended phase. -/
def battleIsFinished (s : State) : Bool :=
  s.phase = .ended

/-- `LOCMBattleEnv.step` (envs/battle.py lines 48-64), restricted to the
engine-facing behaviour: the guard raises `GameIsEndedError` when the
battle is finished, and otherwise the action is applied through
`State.act` (integer decoding, observation encoding and reward shaping
are out of scope). -/
def LOCMBattleEnv.step (s : State) (a : Action) :
    Except EnvError (Option State) :=
  if battleIsFinished s then .error .gameIsEnded else .ok (s.act a)

/-- Summon sublist of the battle branch of `State.available_actions`
(engine.py lines 349-361).  The Python code builds the summon and use
lists in a single pass over the hand, appending to one of the two lists
according to the card class; the per-card `flatMap` used here and in
`State.useActions` produces exactly those lists in the same order. -/
def State.summonActions (s : State) : List Action :=
  let cp := s.current_player
  cp.hand.flatMap fun card =>
    if has_enough_mana cp.mana card ∧ card.ctype = .creature then
      ([Lane.left, Lane.right]).filterMap fun ln =>
        if (cp.lane ln).length < 3 then
          some { atype := .summon, origin := some card.instance_id,
                 target := some ln.toNat }
        else none
    else []

/-- Use sublist of the battle branch of `State.available_actions`
(engine.py lines 363-384): green items target friendly creatures, red
items enemy creatures, blue items enemy creatures or nothing. -/
def State.useActions (s : State) : List Action :=
  let cp := s.current_player
  let op := s.opposing_player
  cp.hand.flatMap fun card =>
    if has_enough_mana cp.mana card then
      match card.ctype with
      | .creature => []
      | .itemGreen =>
        (cp.lanes.1 ++ cp.lanes.2).map fun t =>
          { atype := .use, origin := some card.instance_id,
            target := some t.instance_id }
      | .itemRed =>
        (op.lanes.1 ++ op.lanes.2).map fun t =>
          { atype := .use, origin := some card.instance_id,
            target := some t.instance_id }
      | .itemBlue =>
        ((op.lanes.1 ++ op.lanes.2).map fun t =>
          { atype := .use, origin := some card.instance_id,
            target := some t.instance_id }) ++
        [{ atype := .use, origin := some card.instance_id, target := none }]
    else []

/-- Attack sublist of the battle branch of `State.available_actions`
(engine.py lines 386-406): creatures able to attack target the enemy
creatures of their own lane plus the no-target option, restricted to
the Guard creatures when the defended lane holds any. -/
def State.attackActions (s : State) : List Action :=
  let cp := s.current_player
  let op := s.opposing_player
  ([Lane.left, Lane.right]).flatMap fun ln =>
    let guard_creatures :=
      (op.lane ln).filter fun c => c.keywords.hasAbility .G
    let valid_targets : List (Option Nat) :=
      if guard_creatures.isEmpty then
        (op.lane ln).map (fun c => some c.instance_id) ++ [none]
      else
        guard_creatures.map fun c => some c.instance_id
    ((cp.lane ln).filter Card.able_to_attack).flatMap fun fc =>
      valid_targets.map fun t =>
        { atype := .attack, origin := some fc.instance_id, target := t }

/-- `State.available_actions` (engine.py lines 340-415), recomputed as a
pure function (the source memoises it in a cache cleared by `act`):
draft picks, nothing once ended, and during battle the summon, attack
and use lists in that order, replaced by a lone Pass when all three are
empty. -/
def State.available_actions (s : State) : List Action :=
  match s.phase with
  | .draft =>
    [{ atype := .pick, origin := some 0 }, { atype := .pick, origin := some 1 },
     { atype := .pick, origin := some 2 }]
  | .ended => []
  | .battle =>
    let available := s.summonActions ++ s.attackActions ++ s.useActions
    if available.isEmpty then [{ atype := .pass }] else available

/-- Indices written by `validate_creature` (engine.py lines 438-443). -/
def validate_creature (left_lane_not_full right_lane_not_full : Bool)
    (index : Nat) : List Nat :=
  (if left_lane_not_full then [1 + index * 2] else []) ++
  (if right_lane_not_full then [1 + index * 2 + 1] else [])

/-- Indices written by `validate_green_item` (engine.py lines 445-450). -/
def validate_green_item (cpLanes : List Card × List Card) (index : Nat) :
    List Nat :=
  ((List.range cpLanes.1.length).map fun i => 17 + index * 13 + 1 + i) ++
  ((List.range cpLanes.2.length).map fun i => 17 + index * 13 + 4 + i)

/-- Indices written by `validate_red_item` (engine.py lines 452-457). -/
def validate_red_item (opLanes : List Card × List Card) (index : Nat) :
    List Nat :=
  ((List.range opLanes.1.length).map fun i => 17 + index * 13 + 7 + i) ++
  ((List.range opLanes.2.length).map fun i => 17 + index * 13 + 10 + i)

/-- Indices written by `validate_blue_item` (engine.py lines 459-462). -/
def validate_blue_item (opLanes : List Card × List Card) (index : Nat) :
    List Nat :=
  validate_red_item opLanes index ++ [17 + index * 13]

/-- Mask indices written by the hand loop of `State.action_mask`
(engine.py lines 438-474), dispatching on the card class of each hand
slot.  The imperative `action_mask[j] = 1` writes of the source are
recovered by folding `List.set` over the index sequence. -/
def State.handWrites (s : State) : List Nat :=
  let cp := s.current_player
  let op := s.opposing_player
  let left_lane_not_full := decide (cp.lanes.1.length < 3)
  let right_lane_not_full := decide (cp.lanes.2.length < 3)
  cp.hand.enum.flatMap fun ic =>
    if has_enough_mana cp.mana ic.2 then
      match ic.2.ctype with
      | .creature => validate_creature left_lane_not_full right_lane_not_full ic.1
      | .itemGreen => validate_green_item cp.lanes ic.1
      | .itemRed => validate_red_item op.lanes ic.1
      | .itemBlue => validate_blue_item op.lanes ic.1
    else []

/-- Mask indices written by the board loop of `State.action_mask`
(engine.py lines 476-495): board slots 0..2 are the left lane, 3..5 the
right lane; an able attacker writes the guard target bits when the
facing lane holds Guard creatures, and otherwise the no-target bit plus
one bit per enemy creature. -/
def State.boardWrites (s : State) : List Nat :=
  let cp := s.current_player
  let op := s.opposing_player
  ([((0 : Nat), Lane.left), (3, Lane.right)]).flatMap fun ol =>
    (cp.lane ol.2).enum.flatMap fun ic =>
      let i := ic.1 + ol.1
      if ic.2.able_to_attack then
        let guards := (op.lane ol.2).enum.filterMap fun jc =>
          if jc.2.keywords.hasAbility .G then some jc.1 else none
        if guards.isEmpty then
          (121 + i * 4) ::
            ((List.range (op.lane ol.2).length).map fun j => 121 + i * 4 + 1 + j)
        else
          guards.map fun j => 121 + i * 4 + 1 + j
      else []

/-- Sequence of all mask indices set to 1 by the battle branch of
`State.action_mask` (engine.py lines 427-495): the hand loop first, the
board loop second. -/
def State.maskWrites (s : State) : List Nat :=
  s.handWrites ++ s.boardWrites

/-- `State.action_mask` (engine.py lines 417-502), recomputed as a pure
function (the source memoises it).  During battle the mask starts as 145
zeroes with the Pass bit at index 0 always set, receives the writes of
`State.maskWrites`, and with items disabled keeps the first 17 entries
concatenated with the last 24. -/
def State.action_mask (s : State) : List Int :=
  match s.phase with
  | .draft => [1, 1, 1]
  | .ended => List.replicate (if s.items then 145 else 41) 0
  | .battle =>
    let base := (List.replicate 145 (0 : Int)).set 0 1
    let mask := s.maskWrites.foldl (fun m j => m.set j 1) base
    if s.items then mask else mask.take 17 ++ mask.drop 121

/-- Modelled from the spec: the canonical action denoted by mask index i
in the 145-wide layout of spec section 4.5 (the decoding helper lives in
gym_locm/envs/base_env.py, which is not among the sources).  Index 0 is
Pass; 1..16 are summons (8 hand slots times 2 lanes); 17..120 are item
uses (8 hand slots times 13 target sub-slots: 0 = no target, 1..3 own
left lane, 4..6 own right lane, 7..9 enemy left lane, 10..12 enemy right
lane); 121..144 are attacks (6 board slots times 4 sub-slots: 0 = no
target, 1..3 the enemy creatures of the mirrored lane).  `none` means no
card occupies the referenced slot, so no action carries that index. -/
def State.canonicalAction (s : State) (i : Nat) : Option Action :=
  let cp := s.current_player
  let op := s.opposing_player
  if i = 0 then
    some { atype := .pass }
  else if i ≤ 16 then
    let k := i - 1
    (cp.hand[k / 2]?).map fun c =>
      { atype := .summon, origin := some c.instance_id, target := some (k % 2) }
  else if i ≤ 120 then
    let k := i - 17
    (cp.hand[k / 13]?).bind fun c =>
      let sub := k % 13
      if sub = 0 then
        some { atype := .use, origin := some c.instance_id, target := none }
      else
        let target? :=
          if sub ≤ 3 then cp.lanes.1[sub - 1]?
          else if sub ≤ 6 then cp.lanes.2[sub - 4]?
          else if sub ≤ 9 then op.lanes.1[sub - 7]?
          else op.lanes.2[sub - 10]?
        target?.map fun t =>
          { atype := .use, origin := some c.instance_id,
            target := some t.instance_id }
  else if i ≤ 144 then
    let k := i - 121
    let slot := k / 4
    let sub := k % 4
    let attacker? := if slot ≤ 2 then cp.lanes.1[slot]? else cp.lanes.2[slot - 3]?
    attacker?.bind fun c =>
      if sub = 0 then
        some { atype := .attack, origin := some c.instance_id, target := none }
      else
        let oLane := if slot ≤ 2 then op.lanes.1 else op.lanes.2
        (oLane[sub - 1]?).map fun t =>
          { atype := .attack, origin := some c.instance_id,
            target := some t.instance_id }
  else
    none

/-- Modelled from the spec: with items disabled the 41-wide mask is the
summon block followed by the attack block, so index i of the short mask
stands for index i (when i < 17) or i + 104 (when i ≥ 17) of the full
layout. -/
def State.canonicalActionNoItems (s : State) (i : Nat) : Option Action :=
  if i < 17 then s.canonicalAction i
  else if i < 41 then s.canonicalAction (i + 104)
  else none

/-- Sanity invariants of reachable battle states, used as hypotheses by
the enumeration and mask theorems: the hand holds at most 8 cards, each
lane at most 3, instance identifiers are pairwise distinct across the
acting hand and all four lanes, and lanes hold creatures only. -/
def State.WellFormed (s : State) : Prop :=
  s.current_player.hand.length ≤ 8 ∧
  s.current_player.lanes.1.length ≤ 3 ∧ s.current_player.lanes.2.length ≤ 3 ∧
  s.opposing_player.lanes.1.length ≤ 3 ∧ s.opposing_player.lanes.2.length ≤ 3 ∧
  ((s.current_player.hand ++ s.current_player.lanes.1 ++ s.current_player.lanes.2 ++
    s.opposing_player.lanes.1 ++ s.opposing_player.lanes.2).map Card.instance_id).Nodup ∧
  (∀ c ∈ s.current_player.lanes.1 ++ s.current_player.lanes.2 ++
      s.opposing_player.lanes.1 ++ s.opposing_player.lanes.2,
    c.ctype = CardType.creature)

section AccessorLemmas

@[simp]
theorem State.current_setPlayerAt (s : State) (o : PlayerOrder) (p : Player) :
    (s.setPlayerAt o p).current = s.current := by
  cases o <;> rfl

@[simp]
theorem State.phase_setPlayerAt (s : State) (o : PlayerOrder) (p : Player) :
    (s.setPlayerAt o p).phase = s.phase := by
  cases o <;> rfl

@[simp]
theorem State.flag_setPlayerAt (s : State) (o : PlayerOrder) (p : Player) :
    (s.setPlayerAt o p).was_last_action_invalid = s.was_last_action_invalid := by
  cases o <;> rfl

@[simp]
theorem State.player_setPlayerAt (s : State) (o o' : PlayerOrder) (p : Player) :
    (s.setPlayerAt o' p).player o = if o = o' then p else s.player o := by
  cases o <;> cases o' <;> simp [State.setPlayerAt, State.player]

@[simp]
theorem PlayerOrder.opposing_ne (o : PlayerOrder) : o.opposing ≠ o := by
  cases o <;> simp [PlayerOrder.opposing]

@[simp]
theorem PlayerOrder.ne_opposing (o : PlayerOrder) : o ≠ o.opposing := by
  cases o <;> simp [PlayerOrder.opposing]

theorem State.current_player_setCurrent (s : State) (p : Player) :
    (s.setCurrent p).current_player = p := by
  unfold State.setCurrent State.current_player
  simp

theorem State.opposing_player_setCurrent (s : State) (p : Player) :
    (s.setCurrent p).opposing_player = s.opposing_player := by
  unfold State.setCurrent State.opposing_player
  simp

theorem State.current_player_setOpposing (s : State) (p : Player) :
    (s.setOpposing p).current_player = s.current_player := by
  unfold State.setOpposing State.current_player
  simp

theorem State.opposing_player_setOpposing (s : State) (p : Player) :
    (s.setOpposing p).opposing_player = p := by
  unfold State.setOpposing State.opposing_player
  simp

theorem State.current_player_set2 (s : State) (p q : Player) :
    ((s.setCurrent p).setOpposing q).current_player = p := by
  unfold State.setOpposing State.setCurrent State.current_player
  simp

theorem State.opposing_player_set2 (s : State) (p q : Player) :
    ((s.setCurrent p).setOpposing q).opposing_player = q := by
  unfold State.setOpposing State.setCurrent State.opposing_player
  simp

end AccessorLemmas

section RuneLoopLemmas

/-- Core facts about the rune loop: the threshold never increases, and
the total threshold decrease is five times the bonus-draw increase. -/
theorem Player.runeLoop_mono_pair (h nr bd : Int) :
    (Player.runeLoop h nr bd).1 ≤ nr ∧
    nr - (Player.runeLoop h nr bd).1 = 5 * ((Player.runeLoop h nr bd).2 - bd) := by
  induction nr, bd using Player.runeLoop.induct h with
  | case1 nr bd hc ih => rw [Player.runeLoop]; simp only [if_pos hc]; omega
  | case2 nr bd hc => rw [Player.runeLoop]; simp only [if_neg hc]; omega

theorem Player.damage_next_rune_le (p : Player) (amount : Int) :
    (p.damage amount).1.next_rune ≤ p.next_rune := by
  unfold Player.damage
  exact (Player.runeLoop_mono_pair _ _ _).1

theorem Player.damage_health (p : Player) (amount : Int) :
    (p.damage amount).1.health = p.health - amount := by
  unfold Player.damage
  rfl

end RuneLoopLemmas

section NextRune

/-- Pointwise comparison of the rune thresholds of two states: every
player slot has a threshold in the second state at most its threshold in
the first. -/
def NextRuneLE (s s' : State) : Prop :=
  ∀ o : PlayerOrder, (s'.player o).next_rune ≤ (s.player o).next_rune

theorem NextRuneLE.rfl (s : State) : NextRuneLE s s := fun _ => le_refl _

theorem NextRuneLE.trans {s1 s2 s3 : State}
    (h1 : NextRuneLE s1 s2) (h2 : NextRuneLE s2 s3) : NextRuneLE s1 s3 :=
  fun o => le_trans (h2 o) (h1 o)

@[simp]
theorem Player.setLane_proj (p : Player) (ln : Lane) (cs : List Card) :
    (p.setLane ln cs).next_rune = p.next_rune ∧
    (p.setLane ln cs).health = p.health ∧
    (p.setLane ln cs).mana = p.mana ∧
    (p.setLane ln cs).base_mana = p.base_mana ∧
    (p.setLane ln cs).bonus_mana = p.bonus_mana ∧
    (p.setLane ln cs).bonus_draw = p.bonus_draw ∧
    (p.setLane ln cs).hand = p.hand ∧
    (p.setLane ln cs).deck = p.deck ∧
    (p.setLane ln cs).actions = p.actions ∧
    (p.setLane ln cs).last_drawn = p.last_drawn ∧
    (p.setLane ln cs).id = p.id := by
  cases ln <;> simp [Player.setLane]

theorem NextRuneLE.setCurrent (s : State) (p : Player)
    (h : p.next_rune ≤ s.current_player.next_rune) :
    NextRuneLE s (s.setCurrent p) := by
  intro o
  simp only [State.current_player] at h
  unfold State.setCurrent
  cases o <;> cases hc : s.current <;> simp_all [PlayerOrder.opposing]

theorem NextRuneLE.set2 (s : State) (p q : Player)
    (h1 : p.next_rune ≤ s.current_player.next_rune)
    (h2 : q.next_rune ≤ s.opposing_player.next_rune) :
    NextRuneLE s ((s.setCurrent p).setOpposing q) := by
  intro o
  simp only [State.current_player] at h1
  simp only [State.opposing_player] at h2
  unfold State.setOpposing State.setCurrent
  cases o <;> cases hc : s.current <;> simp_all [PlayerOrder.opposing]

theorem State.doSummon_nextRune (s : State) (o : Card) (t : Option Lane) :
    NextRuneLE s (s.doSummon o t).1 := by
  simp only [State.doSummon]
  repeat' split
  all_goals
    first
      | exact NextRuneLE.rfl s
      | exact NextRuneLE.set2 s _ _ (by simp) (by simp)

theorem State.doAttack_nextRune (s : State) (o t : Option Card) :
    NextRuneLE s (s.doAttack o t).1 := by
  simp only [State.doAttack]
  repeat' split
  all_goals
    first
      | exact NextRuneLE.rfl s
      | exact NextRuneLE.set2 s _ _
          (by first | (simp; done) | (split <;> simp))
          (by first
            | (simp; done)
            | simpa using Player.damage_next_rune_le _ _
            | (split
               · simpa using Player.damage_next_rune_le _ _
               · simp))

theorem State.doUse_nextRune (s : State) (o : Card) (t : Option Card) :
    NextRuneLE s (s.doUse o t).1 := by
  simp only [State.doUse]
  repeat' split
  all_goals
    first
      | exact NextRuneLE.rfl s
      | exact NextRuneLE.setCurrent s _ (by simp)
      | exact NextRuneLE.set2 s _ _ (by simp)
          (by first
            | (simp; done)
            | simpa using Player.damage_next_rune_le _ _)

@[simp]
theorem State.player_flagSet (s : State) (b : Bool) (o : PlayerOrder) :
    (({ s with was_last_action_invalid := b } : State)).player o = s.player o := by
  cases o <;> rfl

theorem State.sweepDead_player (s : State) (o : PlayerOrder) :
    (s.sweepDead.player o).next_rune = (s.player o).next_rune := by
  unfold State.sweepDead
  cases o <;> simp [State.player]

theorem State.checkEnd_player (s : State) (o : PlayerOrder) :
    s.checkEnd.player o = s.player o := by
  unfold State.checkEnd
  split
  · cases o <;> rfl
  · split
    · cases o <;> rfl
    · rfl

theorem Player.drawLoop_next_rune (p : Player) (n : Nat) :
    (p.drawLoop n).1.next_rune = p.next_rune := by
  induction n generalizing p with
  | zero => rfl
  | succ n ih =>
    unfold Player.drawLoop
    split
    · rfl
    · split
      · rfl
      · exact ih _

theorem NextRuneLE.sweepCheck {s s1 : State} (h1 : NextRuneLE s s1) :
    NextRuneLE s s1.sweepDead.checkEnd := by
  refine h1.trans (fun o => ?_)
  rw [State.checkEnd_player, State.sweepDead_player]

theorem NextRuneLE.flagSet {s s1 : State} (b : Bool) (h1 : NextRuneLE s s1) :
    NextRuneLE s ({ s1 with was_last_action_invalid := b } : State) := by
  intro o
  rw [State.player_flagSet]
  exact h1 o

theorem State.tryBattleAction_nextRune (s : State) (a : Action)
    (p : State × Option EngineError) (h : s.tryBattleAction a = some p) :
    NextRuneLE s p.1 := by
  simp only [State.tryBattleAction] at h
  repeat' split at h
  all_goals
    first
      | (rw [Option.some.injEq] at h
         subst h
         first
           | with_reducible exact State.doSummon_nextRune s _ _
           | with_reducible exact State.doAttack_nextRune s _ _
           | with_reducible exact State.doUse_nextRune s _ _
           | exact NextRuneLE.rfl s)
      | simp at h

theorem State.actOnBattle_nextRune (s : State) (a : Action) (s' : State)
    (h : s.actOnBattle a = some s') : NextRuneLE s s' := by
  unfold State.actOnBattle at h
  cases htr : s.tryBattleAction a with
  | none => rw [htr] at h; exact absurd h (by simp)
  | some pr =>
    obtain ⟨s1, err?⟩ := pr
    have hle : NextRuneLE s s1 := State.tryBattleAction_nextRune s a _ htr
    rw [htr] at h
    cases err? with
    | some e =>
      simp only [Option.some.injEq] at h
      subst h
      exact (hle.flagSet true).sweepCheck
    | none =>
      simp only [Option.some.injEq] at h
      subst h
      exact ((hle.trans (NextRuneLE.setCurrent s1 _ (by simp))).sweepCheck)

end NextRune

section ActLemmas

@[simp]
theorem Player.damage_projections (p : Player) (amount : Int) :
    (p.damage amount).1.hand = p.hand ∧
    (p.damage amount).1.deck = p.deck ∧
    (p.damage amount).1.lanes = p.lanes ∧
    (p.damage amount).1.mana = p.mana ∧
    (p.damage amount).1.base_mana = p.base_mana ∧
    (p.damage amount).1.bonus_mana = p.bonus_mana ∧
    (p.damage amount).1.last_drawn = p.last_drawn ∧
    (p.damage amount).1.actions = p.actions ∧
    (p.damage amount).1.id = p.id := by
  unfold Player.damage
  exact ⟨rfl, rfl, rfl, rfl, rfl, rfl, rfl, rfl, rfl⟩

theorem Player.draw_next_rune (p : Player) (n : Int) :
    (p.draw n).1.next_rune = p.next_rune :=
  Player.drawLoop_next_rune p _

theorem State.nextTurn_player (s : State) (o : PlayerOrder) :
    s.nextTurn.player o = s.player o := by
  simp only [State.nextTurn]
  repeat' split
  all_goals cases o <;> rfl

theorem State.newBattleTurn_nextRune (s : State) :
    NextRuneLE s s.newBattleTurn := by
  simp only [State.newBattleTurn]
  refine NextRuneLE.setCurrent s _ ?_
  repeat' split
  all_goals
    first
      | (simp [Player.draw_next_rune]; done)
      | (refine le_trans (Player.damage_next_rune_le _ _) ?_
         simp [Player.draw_next_rune])

theorem State.act_ended_eq (s : State) (a : Action) (h : s.phase = Phase.ended) :
    s.act a = some ({ s with was_last_action_invalid := false } : State) := by
  simp only [State.act, h]

theorem State.act_battle_eq (s : State) (a : Action) (h : s.phase = Phase.battle) :
    s.act a =
      match ({ s with was_last_action_invalid := false } : State).actOnBattle a with
      | none => none
      | some s2 =>
        if a.atype = ActionType.pass then some s2.nextTurn.newBattleTurn
        else some s2 := by
  simp only [State.act, h]

theorem State.act_nextRune (s : State) (a : Action) (s' : State)
    (hph : s.phase ≠ Phase.draft) (h : s.act a = some s') : NextRuneLE s s' := by
  have hflag : NextRuneLE s ({ s with was_last_action_invalid := false } : State) :=
    fun o => by rw [State.player_flagSet]
  cases hp : s.phase with
  | draft => exact absurd hp hph
  | ended =>
    rw [State.act_ended_eq s a hp, Option.some.injEq] at h
    subst h
    exact hflag
  | battle =>
    rw [State.act_battle_eq s a hp] at h
    cases hb : ({ s with was_last_action_invalid := false } : State).actOnBattle a with
    | none => rw [hb] at h; cases h
    | some s2 =>
      rw [hb] at h
      simp only [Option.some.injEq] at h
      have h2 : NextRuneLE s s2 :=
        hflag.trans (State.actOnBattle_nextRune _ a s2 hb)
      by_cases hpass : a.atype = ActionType.pass
      · rw [if_pos hpass, Option.some.injEq] at h
        subst h
        refine (h2.trans (fun o => ?_)).trans (State.newBattleTurn_nextRune _)
        rw [State.nextTurn_player]
      · rw [if_neg hpass, Option.some.injEq] at h
        subst h
        exact h2

end ActLemmas

section DrawLemmas

theorem Player.draw_empty (p : Player) (amount : Int) (hd : p.deck = [])
    (ha : 1 ≤ amount) : p.draw amount = (p, some DrawError.emptyDeck) := by
  unfold Player.draw
  obtain ⟨k, hk⟩ : ∃ k, amount.toNat = k + 1 := ⟨amount.toNat - 1, by omega⟩
  rw [hk]
  unfold Player.drawLoop
  rw [hd]
  rfl

end DrawLemmas

section Samples

/-- Concrete creature card with Ward and Lethal, used by witnesses. -/
def wardLethalCreature : Card :=
  { id := 1, instance_id := 9, ctype := .creature, cost := 1, attack := 1,
    defense := 1, keywords := { l := true, w := true }, player_hp := 0,
    enemy_hp := 0, card_draw := 0 }

/-- Concrete player at 26 health with the starting rune threshold, used
by the rune-cascade witness. -/
def samplePlayer26 : Player :=
  { id := .first, health := 26, next_rune := 25, bonus_draw := 2 }

/-- Concrete player with an empty deck and a full 8-card hand, used by
the deck-out witness. -/
def fullHandPlayer : Player :=
  { id := .first, health := 10, next_rune := 10, deck := [],
    hand := List.replicate 8 wardLethalCreature }

/-- Concrete battle state whose acting player has an empty deck and a
full hand. -/
def sEmptyDeck : State :=
  { items := true, phase := .battle, turn := 3,
    was_last_action_invalid := false,
    players := (fullHandPlayer, { id := .second }),
    current := .first, winner := none, instance_counter := 0 }

/-- Concrete Ended-phase state with a decided winner. -/
def sEnded : State :=
  { items := true, phase := .ended, turn := 7, was_last_action_invalid := true,
    players := ({ id := .first }, { id := .second, health := -2 }),
    current := .first, winner := some .first, instance_counter := 0 }

/-- Concrete creature of cost 3, able to attack, standing in the left
lane of the acting player. -/
def costlyAttacker : Card :=
  { id := 2, instance_id := 1, ctype := .creature, cost := 3, attack := 2,
    defense := 4, keywords := {}, player_hp := 0, enemy_hp := 0,
    card_draw := 0, can_attack := true }

/-- Concrete battle state whose acting player has zero mana and
`costlyAttacker` on the board. -/
def sFreeAttack : State :=
  { items := true, phase := .battle, turn := 4,
    was_last_action_invalid := false,
    players := ({ id := .first, mana := 0, lanes := ([costlyAttacker], []) },
                { id := .second }),
    current := .first, winner := none, instance_counter := 5 }

/-- Concrete attacker with Drain and Ward. -/
def drainWardAttacker : Card :=
  { id := 3, instance_id := 1, ctype := .creature, cost := 3, attack := 3,
    defense := 4, keywords := { d := true, w := true }, player_hp := 0,
    enemy_hp := 0, card_draw := 0, can_attack := true }

/-- Concrete defender with positive attack and 10 defense, no Ward. -/
def bigDefender : Card :=
  { id := 4, instance_id := 2, ctype := .creature, cost := 2, attack := 2,
    defense := 10, keywords := {}, player_hp := 0, enemy_hp := 0,
    card_draw := 0 }

/-- Concrete battle state pitting `drainWardAttacker` against
`bigDefender` in the left lane. -/
def sDrainWard : State :=
  { items := true, phase := .battle, turn := 4,
    was_last_action_invalid := false,
    players := ({ id := .first, mana := 5, lanes := ([drainWardAttacker], []) },
                { id := .second, lanes := ([bigDefender], []) }),
    current := .first, winner := none, instance_counter := 5 }

/-- Concrete affordable green item. -/
def greenItemCard : Card :=
  { id := 5, instance_id := 3, ctype := .itemGreen, cost := 0, attack := 1,
    defense := 1, keywords := {}, player_hp := 0, enemy_hp := 0,
    card_draw := 0 }

/-- Concrete battle state whose acting player holds only
`greenItemCard` in hand and controls no creatures. -/
def sGreenItem : State :=
  { items := true, phase := .battle, turn := 4,
    was_last_action_invalid := false,
    players := ({ id := .first, mana := 5, hand := [greenItemCard] },
                { id := .second }),
    current := .first, winner := none, instance_counter := 5 }

end Samples

/-- C10: `Creature.damage` with a non-positive amount returns 0 and
leaves the creature entirely unchanged: no Ward shield is consumed, no
defense is lost, and the creature is not marked dead even when the
lethal flag is set. -/
theorem creature_damage_nonpositive_is_noop (c : Card) (amount : Int)
    (lethal : Bool) (h : amount ≤ 0) :
    Creature.damage c amount lethal = (c, some 0) := by
  unfold Creature.damage
  rw [if_pos h]

/-- Witness for C10 at a concrete input: damaging a Ward plus Lethal
creature by -3 with the lethal flag set changes nothing and returns 0. -/
theorem creature_damage_nonpositive_is_noop_witness :
    Creature.damage wardLethalCreature (-3) true = (wardLethalCreature, some 0) :=
  creature_damage_nonpositive_is_noop wardLethalCreature (-3) true (by decide)

/-- C6: the rune threshold of a player never increases under
`Player.damage`, every threshold decrease is exactly five times the
bonus-draw increase (one bonus draw per 5-point rune), a single hit
taking health from 26 to 1 with the threshold at 25 cascades the
threshold to 0 while granting 5 bonus draws, and applying `State.act` in
a non-draft phase never increases the threshold of either player. -/
theorem next_rune_monotone_paired (p : Player) (amount : Int) :
    ((p.damage amount).1.next_rune ≤ p.next_rune ∧
      p.next_rune - (p.damage amount).1.next_rune =
        5 * ((p.damage amount).1.bonus_draw - p.bonus_draw)) ∧
    (p.health = 26 → p.next_rune = 25 → amount = 25 →
      (p.damage amount).1.next_rune = 0 ∧
      (p.damage amount).1.bonus_draw = p.bonus_draw + 5) ∧
    (∀ (s : State) (a : Action) (s' : State), s.phase ≠ Phase.draft →
      s.act a = some s' →
      ∀ o : PlayerOrder, (s'.player o).next_rune ≤ (s.player o).next_rune) := by
  refine ⟨⟨Player.damage_next_rune_le p amount, ?_⟩, ?_, ?_⟩
  · unfold Player.damage
    exact (Player.runeLoop_mono_pair _ _ _).2
  · intro h26 h25 ha
    unfold Player.damage
    rw [h26, h25, ha]
    norm_num
    constructor
    · simp [Player.runeLoop]
    · simp [Player.runeLoop]
      omega
  · exact fun s a s' hph h => State.act_nextRune s a s' hph h

/-- Witness for C6 at a concrete input: a player at 26 health with
threshold 25 and 2 queued bonus draws, hit for 25, ends with threshold 0
and 7 bonus draws. -/
theorem next_rune_monotone_paired_witness :
    (samplePlayer26.damage 25).1.next_rune = 0 ∧
    (samplePlayer26.damage 25).1.bonus_draw = samplePlayer26.bonus_draw + 5 :=
  (next_rune_monotone_paired samplePlayer26 25).2.1 rfl rfl rfl

/-- C9: `Player.draw` on an empty deck reports the empty deck no matter
how large the hand is (the empty-deck check precedes the full-hand
check), so at the start of a battle turn a player with an empty deck
takes deck-out burn damage, which sets health to the current rune
threshold and leaves the hand untouched, instead of silently skipping
the draw. -/
theorem empty_deck_check_precedes_full_hand :
    (∀ (p : Player) (amount : Int), p.deck = [] → 1 ≤ amount →
      p.draw amount = (p, some DrawError.emptyDeck)) ∧
    (∀ s : State, s.current_player.deck = [] →
      0 ≤ s.current_player.bonus_draw →
      s.newBattleTurn.current_player.health = s.current_player.next_rune ∧
      s.newBattleTurn.current_player.hand = s.current_player.hand) := by
  constructor
  · exact Player.draw_empty
  · intro s hd hbd
    simp only [State.newBattleTurn]
    rw [State.current_player_setCurrent, Player.draw_empty]
    · constructor
      · simp [Player.damage_health, Player.damage_projections,
              apply_ite Player.health, apply_ite Player.next_rune]
      · simp [Player.damage_projections, apply_ite Player.hand]
    · simp [hd, apply_ite Player.deck]
    · simp [apply_ite Player.bonus_draw]
      omega

/-- Witness for C9 at a concrete input: with an empty deck and a full
8-card hand at 10 health and threshold 10, the draw reports an empty
deck and the new battle turn leaves health at 10. -/
theorem empty_deck_check_precedes_full_hand_witness :
    fullHandPlayer.draw 1 = (fullHandPlayer, some DrawError.emptyDeck) ∧
    sEmptyDeck.newBattleTurn.current_player.health = 10 :=
  ⟨empty_deck_check_precedes_full_hand.1 fullHandPlayer 1 rfl (by decide),
   (empty_deck_check_precedes_full_hand.2 sEmptyDeck rfl (by decide)).1⟩

section FailureLemmas

theorem sweepLane_id (l : List Card) (i : Nat)
    (hl : ∀ c ∈ l, c.is_dead = false) : sweepLane l i = l := by
  revert hl
  induction l, i using sweepLane.induct with
  | case1 l i h c hd ih =>
    intro hl
    have hc := hl c (l.get_mem i h)
    rw [hc] at hd
    cases hd
  | case2 l i h c hd ih =>
    intro hl
    have hc : (l.get ⟨i, h⟩).is_dead = false := by simpa using hd
    rw [sweepLane]
    simp only [dif_pos h, hc, Bool.false_eq_true, if_false]
    exact ih hl
  | case3 l i h =>
    intro _
    rw [sweepLane, dif_neg h]

theorem State.sweepDead_id (s : State)
    (hd : ∀ c ∈ s.players.1.lanes.1 ++ s.players.1.lanes.2 ++
        s.players.2.lanes.1 ++ s.players.2.lanes.2, c.is_dead = false) :
    s.sweepDead = s := by
  simp only [State.sweepDead]
  rw [sweepLane_id _ _ (fun c hc => hd c (by simp [hc])),
      sweepLane_id _ _ (fun c hc => hd c (by simp [hc])),
      sweepLane_id _ _ (fun c hc => hd c (by simp [hc])),
      sweepLane_id _ _ (fun c hc => hd c (by simp [hc]))]

theorem State.checkEnd_id (s : State) (h1 : 0 < s.players.1.health)
    (h2 : 0 < s.players.2.health) : s.checkEnd = s := by
  unfold State.checkEnd
  rw [if_neg (by omega : ¬s.players.1.health ≤ 0),
      if_neg (by omega : ¬s.players.2.health ≤ 0)]

theorem State.sweepCheck_of_flag (s : State) (b : Bool)
    (hd : ∀ c ∈ s.players.1.lanes.1 ++ s.players.1.lanes.2 ++
        s.players.2.lanes.1 ++ s.players.2.lanes.2, c.is_dead = false)
    (h1 : 0 < s.players.1.health) (h2 : 0 < s.players.2.health) :
    ({ s with was_last_action_invalid := b } : State).sweepDead.checkEnd =
      ({ s with was_last_action_invalid := b } : State) := by
  rw [State.sweepDead_id ({ s with was_last_action_invalid := b } : State) hd,
      State.checkEnd_id ({ s with was_last_action_invalid := b } : State) h1 h2]

theorem State.sweepDead_flag (s : State) :
    s.sweepDead.was_last_action_invalid = s.was_last_action_invalid := rfl

theorem State.checkEnd_flag (s : State) :
    s.checkEnd.was_last_action_invalid = s.was_last_action_invalid := by
  unfold State.checkEnd
  repeat' split
  all_goals rfl

theorem State.findCard_iid (s : State) (iid : Nat) (c : Card)
    (h : s.findCard iid = some c) : c.instance_id = iid := by
  unfold State.findCard at h
  have h2 := List.find?_some h
  simpa using h2

theorem State.doSummon_fail (s : State) (o : Card) (t : Option Lane)
    (s' : State) (e : EngineError) (h : s.doSummon o t = (s', some e)) :
    s' = s := by
  simp only [State.doSummon] at h
  repeat' split at h
  all_goals rw [Prod.mk.injEq] at h
  all_goals
    first
      | exact Option.noConfusion h.2
      | exact h.1.symm

theorem State.doAttack_fail (s : State) (o t : Option Card)
    (s' : State) (e : EngineError) (h : s.doAttack o t = (s', some e)) :
    s' = s := by
  simp only [State.doAttack] at h
  repeat' split at h
  all_goals rw [Prod.mk.injEq] at h
  all_goals
    first
      | exact Option.noConfusion h.2
      | exact h.1.symm

theorem State.doUse_fail (s : State) (o : Card) (t : Option Card)
    (s' : State) (e : EngineError) (h : s.doUse o t = (s', some e)) :
    s' = s ∨ s' = s.setCurrent { s.current_player with
      hand := s.current_player.hand.eraseP
        (fun c => c.instance_id == o.instance_id) } := by
  simp only [State.doUse] at h
  repeat' split at h
  all_goals rw [Prod.mk.injEq] at h
  all_goals
    first
      | exact Option.noConfusion h.2
      | exact Or.inl h.1.symm
      | exact Or.inr h.1.symm

theorem State.doSummon_flag (s : State) (o : Card) (t : Option Lane) :
    (s.doSummon o t).1.was_last_action_invalid = s.was_last_action_invalid := by
  simp only [State.doSummon]
  repeat' split
  all_goals simp [State.setCurrent, State.setOpposing]

theorem State.doAttack_flag (s : State) (o t : Option Card) :
    (s.doAttack o t).1.was_last_action_invalid = s.was_last_action_invalid := by
  simp only [State.doAttack]
  repeat' split
  all_goals simp [State.setCurrent, State.setOpposing]

theorem State.doUse_flag (s : State) (o : Card) (t : Option Card) :
    (s.doUse o t).1.was_last_action_invalid = s.was_last_action_invalid := by
  simp only [State.doUse]
  repeat' split
  all_goals simp [State.setCurrent, State.setOpposing]

theorem State.tryBattleAction_flag (s : State) (a : Action)
    (p : State × Option EngineError) (h : s.tryBattleAction a = some p) :
    p.1.was_last_action_invalid = s.was_last_action_invalid := by
  simp only [State.tryBattleAction] at h
  repeat' split at h
  all_goals
    first
      | (rw [Option.some.injEq] at h
         subst h
         first
           | with_reducible exact State.doSummon_flag s _ _
           | with_reducible exact State.doAttack_flag s _ _
           | with_reducible exact State.doUse_flag s _ _
           | rfl)
      | simp at h

theorem State.tryBattleAction_fail (s : State) (a : Action) (s1 : State)
    (e : EngineError) (h : s.tryBattleAction a = some (s1, some e)) :
    s1 = s ∨
    (a.atype = ActionType.use ∧ ∃ oid, a.origin = some oid ∧
      s1 = s.setCurrent { s.current_player with
        hand := s.current_player.hand.eraseP
          (fun c => c.instance_id == oid) }) := by
  simp only [State.tryBattleAction] at h
  rcases ho : a.origin with _ | oid
  · simp only [ho] at h
    cases hat : a.atype
    all_goals simp only [hat] at h
    all_goals repeat' split at h
    all_goals try rw [Option.some.injEq] at h
    all_goals
      first
        | exact Or.inl (State.doSummon_fail _ _ _ _ _ h)
        | exact Or.inl (State.doAttack_fail _ _ _ _ _ h)
        | (rw [Prod.mk.injEq] at h
           first
             | exact Option.noConfusion h.2
             | exact Or.inl h.1.symm)
        | simp at h
  · rcases hfc : s.findCard oid with _ | c
    · simp only [ho, hfc] at h
      rw [Option.some.injEq, Prod.mk.injEq] at h
      exact Or.inl h.1.symm
    · simp only [ho, hfc] at h
      cases hat : a.atype
      all_goals simp only [hat] at h
      all_goals repeat' split at h
      all_goals try rw [Option.some.injEq] at h
      all_goals
        first
          | exact Or.inl (State.doSummon_fail _ _ _ _ _ h)
          | exact Or.inl (State.doAttack_fail _ _ _ _ _ h)
          | (rw [Prod.mk.injEq] at h
             first
               | exact Option.noConfusion h.2
               | exact Or.inl h.1.symm)
          | (rcases State.doUse_fail _ _ _ _ _ h with h1 | h1
             · exact Or.inl h1
             · rw [State.findCard_iid s oid c hfc] at h1
               exact Or.inr ⟨rfl, oid, rfl, h1⟩)
          | simp at h

end FailureLemmas

section MaskLemmas

theorem foldl_set_length (ws : List Nat) (m : List Int) :
    (ws.foldl (fun m j => m.set j 1) m).length = m.length := by
  induction ws generalizing m with
  | nil => rfl
  | cons w ws ih => rw [List.foldl_cons, ih, List.length_set]

theorem foldl_set_getElem (ws : List Nat) (m : List Int) (i : Nat) :
    (ws.foldl (fun m j => m.set j 1) m)[i]? =
      if i ∈ ws ∧ i < m.length then some 1 else m[i]? := by
  induction ws generalizing m with
  | nil => simp
  | cons w ws ih =>
    rw [List.foldl_cons, ih, List.length_set]
    simp only [List.getElem?_set, List.mem_cons]
    split_ifs with h1 h2 h3 h3 h4 h4 <;>
      first
        | rfl
        | omega
        | (rw [List.getElem?_eq_none (by omega)])
        | (rw [List.getElem?_eq_none (l := m) (by omega)])
        | tauto

theorem State.action_mask_battle (s : State) (h : s.phase = Phase.battle) :
    s.action_mask =
      (if s.items then
        s.maskWrites.foldl (fun m j => m.set j 1)
          ((List.replicate 145 (0 : Int)).set 0 1)
      else
        (s.maskWrites.foldl (fun m j => m.set j 1)
          ((List.replicate 145 (0 : Int)).set 0 1)).take 17 ++
        (s.maskWrites.foldl (fun m j => m.set j 1)
          ((List.replicate 145 (0 : Int)).set 0 1)).drop 121) := by
  simp only [State.action_mask, h]

theorem State.action_mask_length (s : State) (h : s.phase = Phase.battle) :
    s.action_mask.length = if s.items then 145 else 41 := by
  rw [State.action_mask_battle s h]
  have hlen : (s.maskWrites.foldl (fun m j => m.set j 1)
      ((List.replicate 145 (0 : Int)).set 0 1)).length = 145 := by
    rw [foldl_set_length, List.length_set, List.length_replicate]
  split
  · exact hlen
  · rw [List.length_append, List.length_take, List.length_drop, hlen]
    omega

theorem maskBase_getElem (i : Nat) (hi : i < 145) :
    ((List.replicate 145 (0 : Int)).set 0 1)[i]? =
      some (if i = 0 then 1 else 0) := by
  by_cases h0 : i = 0
  · subst h0
    rw [List.getElem?_set_self (by simp), if_pos rfl]
  · rw [List.getElem?_set_ne (by omega), List.getElem?_replicate_of_lt hi,
      if_neg h0]

theorem State.action_mask_get (s : State) (h : s.phase = Phase.battle)
    (hit : s.items = true) (i : Nat) (hi : i < 145) :
    s.action_mask[i]? = some (if i = 0 ∨ i ∈ s.maskWrites then 1 else 0) := by
  rw [State.action_mask_battle s h, if_pos hit, foldl_set_getElem]
  rw [List.length_set, List.length_replicate]
  rw [maskBase_getElem i hi]
  split_ifs <;> first | rfl | tauto

theorem State.action_mask_get_noitems (s : State) (h : s.phase = Phase.battle)
    (hit : s.items = false) (i : Nat) (hi : i < 41) :
    s.action_mask[i]? =
      some (if (if i < 17 then i else i + 104) = 0 ∨
              (if i < 17 then i else i + 104) ∈ s.maskWrites then 1 else 0) := by
  have hlen : (s.maskWrites.foldl (fun m j => m.set j 1)
      ((List.replicate 145 (0 : Int)).set 0 1)).length = 145 := by
    rw [foldl_set_length, List.length_set, List.length_replicate]
  have hfull : ∀ k, k < 145 →
      (s.maskWrites.foldl (fun m j => m.set j 1)
        ((List.replicate 145 (0 : Int)).set 0 1))[k]? =
      some (if k = 0 ∨ k ∈ s.maskWrites then 1 else 0) := by
    intro k hk
    rw [foldl_set_getElem, List.length_set, List.length_replicate,
      maskBase_getElem k hk]
    split_ifs <;> first | rfl | tauto
  rw [State.action_mask_battle s h, hit]
  simp only [Bool.false_eq_true, if_false]
  by_cases h17 : i < 17
  · rw [List.getElem?_append_left (by rw [List.length_take, hlen]; omega),
      List.getElem?_take_of_lt h17, hfull i (by omega), if_pos h17]
  · rw [List.getElem?_append_right (by rw [List.length_take, hlen]; omega),
      List.length_take, hlen, List.getElem?_drop, if_neg h17]
    have he : 121 + (i - 17 ⊓ 145) = i + 104 := by omega
    rw [he, hfull (i + 104) (by omega)]

end MaskLemmas

section EnumerationLemmas

theorem mem_validate_creature (lf rf : Bool) (idx i : Nat) :
    i ∈ validate_creature lf rf idx ↔
      (lf = true ∧ i = 1 + idx * 2) ∨ (rf = true ∧ i = 1 + idx * 2 + 1) := by
  unfold validate_creature
  cases lf <;> cases rf <;> simp

theorem mem_validate_green_item (lanes : List Card × List Card) (idx i : Nat) :
    i ∈ validate_green_item lanes idx ↔
      (∃ j, j < lanes.1.length ∧ 17 + idx * 13 + 1 + j = i) ∨
      (∃ j, j < lanes.2.length ∧ 17 + idx * 13 + 4 + j = i) := by
  unfold validate_green_item
  simp [List.mem_append, List.mem_map, List.mem_range]

theorem mem_validate_red_item (lanes : List Card × List Card) (idx i : Nat) :
    i ∈ validate_red_item lanes idx ↔
      (∃ j, j < lanes.1.length ∧ 17 + idx * 13 + 7 + j = i) ∨
      (∃ j, j < lanes.2.length ∧ 17 + idx * 13 + 10 + j = i) := by
  unfold validate_red_item
  simp [List.mem_append, List.mem_map, List.mem_range]

theorem mem_validate_blue_item (lanes : List Card × List Card) (idx i : Nat) :
    i ∈ validate_blue_item lanes idx ↔
      ((∃ j, j < lanes.1.length ∧ 17 + idx * 13 + 7 + j = i) ∨
       (∃ j, j < lanes.2.length ∧ 17 + idx * 13 + 10 + j = i)) ∨
      i = 17 + idx * 13 := by
  unfold validate_blue_item
  rw [List.mem_append, mem_validate_red_item]
  simp

theorem mem_handWrites (s : State) (i : Nat) :
    i ∈ s.handWrites ↔
      ∃ idx c, s.current_player.hand[idx]? = some c ∧
        has_enough_mana s.current_player.mana c = true ∧
        ((c.ctype = CardType.creature ∧
            i ∈ validate_creature (decide (s.current_player.lanes.1.length < 3))
              (decide (s.current_player.lanes.2.length < 3)) idx) ∨
         (c.ctype = CardType.itemGreen ∧
            i ∈ validate_green_item s.current_player.lanes idx) ∨
         (c.ctype = CardType.itemRed ∧
            i ∈ validate_red_item s.opposing_player.lanes idx) ∨
         (c.ctype = CardType.itemBlue ∧
            i ∈ validate_blue_item s.opposing_player.lanes idx)) := by
  simp only [State.handWrites, List.mem_flatMap, Prod.exists,
    List.mem_enum_iff_getElem?]
  constructor
  · rintro ⟨idx, c, hm, hi⟩
    refine ⟨idx, c, hm, ?_⟩
    by_cases hen : has_enough_mana s.current_player.mana c = true
    · rw [if_pos hen] at hi
      refine ⟨hen, ?_⟩
      cases hct : c.ctype <;> rw [hct] at hi
      · exact Or.inl ⟨rfl, hi⟩
      · exact Or.inr (Or.inl ⟨rfl, hi⟩)
      · exact Or.inr (Or.inr (Or.inl ⟨rfl, hi⟩))
      · exact Or.inr (Or.inr (Or.inr ⟨rfl, hi⟩))
    · rw [if_neg hen] at hi
      exact absurd hi (List.not_mem_nil i)
  · rintro ⟨idx, c, hm, hen, hd⟩
    refine ⟨idx, c, hm, ?_⟩
    rw [if_pos hen]
    rcases hd with ⟨hct, h⟩ | ⟨hct, h⟩ | ⟨hct, h⟩ | ⟨hct, h⟩ <;> rw [hct] <;> exact h

theorem guards_empty_iff (l : List Card) :
    ((l.enum.filterMap fun jc =>
        if jc.2.keywords.hasAbility Ability.G = true then some jc.1 else none).isEmpty
      = true) ↔
    ∀ g ∈ l, g.keywords.hasAbility Ability.G = false := by
  rw [List.isEmpty_iff, List.filterMap_eq_nil_iff]
  constructor
  · intro h g hg
    obtain ⟨k, hk⟩ := List.getElem?_of_mem hg
    have hgk := h (k, g) (List.mem_enum_iff_getElem?.mpr hk)
    by_contra hG
    rw [Bool.not_eq_false] at hG
    rw [if_pos hG] at hgk
    exact Option.noConfusion hgk
  · intro h jc hjc
    have hg := List.snd_mem_of_mem_enum hjc
    simp [h jc.2 hg]

theorem mem_guards_iff (l : List Card) (j : Nat) :
    (j ∈ l.enum.filterMap fun jc =>
        if jc.2.keywords.hasAbility Ability.G = true then some jc.1 else none) ↔
    ∃ g, l[j]? = some g ∧ g.keywords.hasAbility Ability.G = true := by
  rw [List.mem_filterMap]
  constructor
  · rintro ⟨⟨k, g⟩, hmem, hf⟩
    rw [List.mem_enum_iff_getElem?] at hmem
    by_cases hG : g.keywords.hasAbility Ability.G = true
    · rw [if_pos hG] at hf
      obtain rfl := Option.some.inj hf
      exact ⟨g, hmem, hG⟩
    · rw [if_neg hG] at hf
      exact Option.noConfusion hf
  · rintro ⟨g, hg, hG⟩
    exact ⟨(j, g), List.mem_enum_iff_getElem?.mpr hg, by rw [if_pos hG]⟩

theorem mem_attack_block (cpl opl : List Card) (off i : Nat) :
    (i ∈ cpl.enum.flatMap fun ic =>
        if ic.2.able_to_attack = true then
          if ((opl.enum.filterMap fun jc =>
              if jc.2.keywords.hasAbility Ability.G = true then some jc.1
              else none).isEmpty) = true then
            (121 + (ic.1 + off) * 4) ::
              ((List.range opl.length).map fun j => 121 + (ic.1 + off) * 4 + 1 + j)
          else
            (opl.enum.filterMap fun jc =>
              if jc.2.keywords.hasAbility Ability.G = true then some jc.1
              else none).map fun j => 121 + (ic.1 + off) * 4 + 1 + j
        else []) ↔
    ∃ pos c, cpl[pos]? = some c ∧ c.able_to_attack = true ∧
      (((∀ g ∈ opl, g.keywords.hasAbility Ability.G = false) ∧
          (i = 121 + (pos + off) * 4 ∨
           ∃ j, j < opl.length ∧ i = 121 + (pos + off) * 4 + 1 + j)) ∨
       (∃ j g, opl[j]? = some g ∧ g.keywords.hasAbility Ability.G = true ∧
          i = 121 + (pos + off) * 4 + 1 + j)) := by
  simp only [List.mem_flatMap, Prod.exists, List.mem_enum_iff_getElem?]
  constructor
  · rintro ⟨pos, c, hm, hi⟩
    refine ⟨pos, c, hm, ?_⟩
    by_cases hab : c.able_to_attack = true
    · rw [if_pos hab] at hi
      refine ⟨hab, ?_⟩
      by_cases hgd : ((opl.enum.filterMap fun jc =>
          if jc.2.keywords.hasAbility Ability.G = true then some jc.1
          else none).isEmpty) = true
      · rw [if_pos hgd] at hi
        rcases List.mem_cons.mp hi with he | hmem
        · exact Or.inl ⟨(guards_empty_iff opl).mp hgd, Or.inl he⟩
        · obtain ⟨j, hj, he⟩ := List.mem_map.mp hmem
          exact Or.inl ⟨(guards_empty_iff opl).mp hgd,
            Or.inr ⟨j, List.mem_range.mp hj, he.symm⟩⟩
      · rw [if_neg hgd] at hi
        obtain ⟨j, hj, he⟩ := List.mem_map.mp hi
        obtain ⟨g, hg, hG⟩ := (mem_guards_iff opl j).mp hj
        exact Or.inr ⟨j, g, hg, hG, he.symm⟩
    · rw [if_neg hab] at hi
      exact absurd hi (List.not_mem_nil i)
  · rintro ⟨pos, c, hm, hab, hd⟩
    refine ⟨pos, c, hm, ?_⟩
    rw [if_pos hab]
    rcases hd with ⟨hng, hw⟩ | ⟨j, g, hg, hG, he⟩
    · rw [if_pos ((guards_empty_iff opl).mpr hng)]
      rcases hw with he | ⟨j, hj, he⟩
      · exact List.mem_cons.mpr (Or.inl he)
      · exact List.mem_cons.mpr (Or.inr (List.mem_map.mpr
          ⟨j, List.mem_range.mpr hj, he.symm⟩))
    · have hne : ¬ ((opl.enum.filterMap fun jc =>
          if jc.2.keywords.hasAbility Ability.G = true then some jc.1
          else none).isEmpty) = true := by
        intro hgd
        have := (guards_empty_iff opl).mp hgd g (List.getElem?_mem hg)
        rw [hG] at this
        exact Bool.noConfusion this
      rw [if_neg hne]
      exact List.mem_map.mpr ⟨j, (mem_guards_iff opl j).mpr ⟨g, hg, hG⟩, he.symm⟩

theorem mem_boardWrites (s : State) (i : Nat) :
    i ∈ s.boardWrites ↔
      ∃ off ln, ((off = 0 ∧ ln = Lane.left) ∨ (off = 3 ∧ ln = Lane.right)) ∧
        ∃ pos c, (s.current_player.lane ln)[pos]? = some c ∧
          c.able_to_attack = true ∧
          (((∀ g ∈ s.opposing_player.lane ln, g.keywords.hasAbility Ability.G = false) ∧
              (i = 121 + (pos + off) * 4 ∨
               ∃ j, j < (s.opposing_player.lane ln).length ∧
                 i = 121 + (pos + off) * 4 + 1 + j)) ∨
           (∃ j g, (s.opposing_player.lane ln)[j]? = some g ∧
              g.keywords.hasAbility Ability.G = true ∧
              i = 121 + (pos + off) * 4 + 1 + j)) := by
  constructor
  · intro h
    simp only [State.boardWrites] at h
    rw [List.mem_flatMap] at h
    obtain ⟨ol, hol, hi⟩ := h
    rcases List.mem_cons.mp hol with rfl | hol
    · exact ⟨0, Lane.left, Or.inl ⟨rfl, rfl⟩, (mem_attack_block _ _ 0 i).mp hi⟩
    rcases List.mem_cons.mp hol with rfl | hol
    · exact ⟨3, Lane.right, Or.inr ⟨rfl, rfl⟩, (mem_attack_block _ _ 3 i).mp hi⟩
    exact absurd hol (List.not_mem_nil ol)
  · rintro ⟨off, ln, hol, hrest⟩
    simp only [State.boardWrites]
    rw [List.mem_flatMap]
    rcases hol with ⟨rfl, rfl⟩ | ⟨rfl, rfl⟩
    · exact ⟨(0, Lane.left), List.mem_cons_self _ _,
        (mem_attack_block _ _ 0 i).mpr hrest⟩
    · exact ⟨(3, Lane.right), List.mem_cons.mpr (Or.inr (List.mem_cons_self _ _)),
        (mem_attack_block _ _ 3 i).mpr hrest⟩

end EnumerationLemmas

section EnumerationLemmasB

theorem handWrites_bounds (s : State) (hh : s.current_player.hand.length ≤ 8)
    (h1 : s.current_player.lanes.1.length ≤ 3)
    (h2 : s.current_player.lanes.2.length ≤ 3)
    (h3 : s.opposing_player.lanes.1.length ≤ 3)
    (h4 : s.opposing_player.lanes.2.length ≤ 3) :
    ∀ i ∈ s.handWrites, 1 ≤ i ∧ i ≤ 120 := by
  intro i hi
  rw [mem_handWrites] at hi
  obtain ⟨idx, c, hm, _, hd⟩ := hi
  have hidx : idx < 8 := by
    have := List.getElem?_mem hm
    have hlt : idx < s.current_player.hand.length := by
      by_contra hge
      rw [List.getElem?_eq_none (by omega)] at hm
      exact Option.noConfusion hm
    omega
  rcases hd with ⟨_, h⟩ | ⟨_, h⟩ | ⟨_, h⟩ | ⟨_, h⟩
  · rw [mem_validate_creature] at h
    rcases h with ⟨_, rfl⟩ | ⟨_, rfl⟩ <;> omega
  · rw [mem_validate_green_item] at h
    rcases h with ⟨j, hj, rfl⟩ | ⟨j, hj, rfl⟩ <;> omega
  · rw [mem_validate_red_item] at h
    rcases h with ⟨j, hj, rfl⟩ | ⟨j, hj, rfl⟩ <;> omega
  · rw [mem_validate_blue_item] at h
    rcases h with (⟨j, hj, rfl⟩ | ⟨j, hj, rfl⟩) | rfl <;> omega

theorem boardWrites_bounds (s : State)
    (h1 : s.current_player.lanes.1.length ≤ 3)
    (h2 : s.current_player.lanes.2.length ≤ 3)
    (h3 : s.opposing_player.lanes.1.length ≤ 3)
    (h4 : s.opposing_player.lanes.2.length ≤ 3) :
    ∀ i ∈ s.boardWrites, 121 ≤ i ∧ i ≤ 144 := by
  intro i hi
  rw [mem_boardWrites] at hi
  obtain ⟨off, ln, hol, pos, c, hm, _, hd⟩ := hi
  have hpos : pos < (s.current_player.lane ln).length := by
    by_contra hge
    rw [List.getElem?_eq_none (by omega)] at hm
    exact Option.noConfusion hm
  have hcp : (s.current_player.lane ln).length ≤ 3 := by
    cases ln <;> simp only [Player.lane] <;> omega
  have hop : (s.opposing_player.lane ln).length ≤ 3 := by
    cases ln <;> simp only [Player.lane] <;> omega
  have hoff : off = 0 ∨ off = 3 := by
    rcases hol with ⟨rfl, _⟩ | ⟨rfl, _⟩
    · exact Or.inl rfl
    · exact Or.inr rfl
  rcases hd with ⟨_, rfl | ⟨j, hj, rfl⟩⟩ | ⟨j, g, hg, _, rfl⟩
  · omega
  · omega
  · have hj : j < (s.opposing_player.lane ln).length := by
      by_contra hge
      rw [List.getElem?_eq_none (by omega)] at hg
      exact Option.noConfusion hg
    omega

theorem State.wf_inj (s : State) (hwf : s.WellFormed) :
    ∀ c ∈ s.current_player.hand ++ s.current_player.lanes.1 ++
        s.current_player.lanes.2 ++ s.opposing_player.lanes.1 ++
        s.opposing_player.lanes.2,
      ∀ g ∈ s.current_player.hand ++ s.current_player.lanes.1 ++
        s.current_player.lanes.2 ++ s.opposing_player.lanes.1 ++
        s.opposing_player.lanes.2,
      c.instance_id = g.instance_id → c = g :=
  fun _ hc _ hg h => List.inj_on_of_nodup_map hwf.2.2.2.2.2.1 hc hg h

theorem State.wf_zone_ne (s : State) (hwf : s.WellFormed) :
    (∀ c ∈ s.current_player.hand, ∀ g ∈ s.current_player.lanes.1,
        c.instance_id ≠ g.instance_id) ∧
    (∀ c ∈ s.current_player.hand, ∀ g ∈ s.current_player.lanes.2,
        c.instance_id ≠ g.instance_id) ∧
    (∀ c ∈ s.current_player.hand, ∀ g ∈ s.opposing_player.lanes.1,
        c.instance_id ≠ g.instance_id) ∧
    (∀ c ∈ s.current_player.hand, ∀ g ∈ s.opposing_player.lanes.2,
        c.instance_id ≠ g.instance_id) ∧
    (∀ c ∈ s.current_player.lanes.1, ∀ g ∈ s.current_player.lanes.2,
        c.instance_id ≠ g.instance_id) ∧
    (∀ c ∈ s.current_player.lanes.1, ∀ g ∈ s.opposing_player.lanes.1,
        c.instance_id ≠ g.instance_id) ∧
    (∀ c ∈ s.current_player.lanes.1, ∀ g ∈ s.opposing_player.lanes.2,
        c.instance_id ≠ g.instance_id) ∧
    (∀ c ∈ s.current_player.lanes.2, ∀ g ∈ s.opposing_player.lanes.1,
        c.instance_id ≠ g.instance_id) ∧
    (∀ c ∈ s.current_player.lanes.2, ∀ g ∈ s.opposing_player.lanes.2,
        c.instance_id ≠ g.instance_id) ∧
    (∀ c ∈ s.opposing_player.lanes.1, ∀ g ∈ s.opposing_player.lanes.2,
        c.instance_id ≠ g.instance_id) := by
  have h := hwf.2.2.2.2.2.1
  rw [List.nodup_iff_count_le_one] at h
  refine ⟨?_, ?_, ?_, ?_, ?_, ?_, ?_, ?_, ?_, ?_⟩ <;>
    (intro c hc g hg he
     have hcnt := h c.instance_id
     simp only [List.map_append, List.count_append] at hcnt
     have p1 := List.count_pos_iff.mpr
       (List.mem_map_of_mem Card.instance_id hc)
     have p2 := List.count_pos_iff.mpr
       (List.mem_map_of_mem Card.instance_id hg)
     rw [← he] at p2
     omega)

theorem mem_summonActions (s : State) (a : Action) :
    a ∈ s.summonActions ↔
      ∃ c ∈ s.current_player.hand,
        has_enough_mana s.current_player.mana c = true ∧
        c.ctype = CardType.creature ∧
        ∃ ln : Lane, (s.current_player.lane ln).length < 3 ∧
          a = { atype := ActionType.summon, origin := some c.instance_id,
                target := some ln.toNat } := by
  simp only [State.summonActions, List.mem_flatMap]
  constructor
  · rintro ⟨c, hc, ha⟩
    refine ⟨c, hc, ?_⟩
    by_cases hcond : has_enough_mana s.current_player.mana c = true ∧
        c.ctype = CardType.creature
    · rw [if_pos hcond] at ha
      obtain ⟨ln, _, he⟩ := List.mem_filterMap.mp ha
      refine ⟨hcond.1, hcond.2, ln, ?_⟩
      by_cases hlen : (s.current_player.lane ln).length < 3
      · rw [if_pos hlen] at he
        exact ⟨hlen, (Option.some.inj he).symm⟩
      · rw [if_neg hlen] at he
        exact Option.noConfusion he
    · rw [if_neg hcond] at ha
      exact absurd ha (List.not_mem_nil a)
  · rintro ⟨c, hc, hen, hct, ln, hlen, rfl⟩
    refine ⟨c, hc, ?_⟩
    rw [if_pos ⟨hen, hct⟩]
    refine List.mem_filterMap.mpr ⟨ln, ?_, by rw [if_pos hlen]⟩
    cases ln <;> simp

theorem mem_useActions (s : State) (a : Action) :
    a ∈ s.useActions ↔
      ∃ c ∈ s.current_player.hand,
        has_enough_mana s.current_player.mana c = true ∧
        ((c.ctype = CardType.itemGreen ∧
            ∃ t ∈ s.current_player.lanes.1 ++ s.current_player.lanes.2,
              a = { atype := ActionType.use, origin := some c.instance_id,
                    target := some t.instance_id }) ∨
         ((c.ctype = CardType.itemRed ∨ c.ctype = CardType.itemBlue) ∧
            ∃ t ∈ s.opposing_player.lanes.1 ++ s.opposing_player.lanes.2,
              a = { atype := ActionType.use, origin := some c.instance_id,
                    target := some t.instance_id }) ∨
         (c.ctype = CardType.itemBlue ∧
            a = { atype := ActionType.use, origin := some c.instance_id,
                  target := none })) := by
  simp only [State.useActions, List.mem_flatMap]
  constructor
  · rintro ⟨c, hc, ha⟩
    refine ⟨c, hc, ?_⟩
    by_cases hen : has_enough_mana s.current_player.mana c = true
    · rw [if_pos hen] at ha
      refine ⟨hen, ?_⟩
      cases hct : c.ctype <;> rw [hct] at ha
      · exact absurd ha (List.not_mem_nil a)
      · obtain ⟨t, ht, he⟩ := List.mem_map.mp ha
        exact Or.inl ⟨rfl, t, ht, he.symm⟩
      · obtain ⟨t, ht, he⟩ := List.mem_map.mp ha
        exact Or.inr (Or.inl ⟨Or.inl rfl, t, ht, he.symm⟩)
      · rcases List.mem_append.mp ha with hmem | hmem
        · obtain ⟨t, ht, he⟩ := List.mem_map.mp hmem
          exact Or.inr (Or.inl ⟨Or.inr rfl, t, ht, he.symm⟩)
        · exact Or.inr (Or.inr ⟨rfl, List.mem_singleton.mp hmem⟩)
    · rw [if_neg hen] at ha
      exact absurd ha (List.not_mem_nil a)
  · rintro ⟨c, hc, hen, hd⟩
    refine ⟨c, hc, ?_⟩
    rw [if_pos hen]
    rcases hd with ⟨hct, t, ht, rfl⟩ | ⟨hct, t, ht, rfl⟩ | ⟨hct, rfl⟩
    · rw [hct]
      exact List.mem_map.mpr ⟨t, ht, rfl⟩
    · rcases hct with hct | hct <;> rw [hct]
      · exact List.mem_map.mpr ⟨t, ht, rfl⟩
      · exact List.mem_append.mpr (Or.inl (List.mem_map.mpr ⟨t, ht, rfl⟩))
    · rw [hct]
      exact List.mem_append.mpr (Or.inr (List.mem_singleton.mpr rfl))

theorem mem_attackActions (s : State) (a : Action) :
    a ∈ s.attackActions ↔
      ∃ ln : Lane, ∃ fc ∈ s.current_player.lane ln,
        fc.able_to_attack = true ∧
        ∃ t ∈ (if ((s.opposing_player.lane ln).filter fun c =>
                  c.keywords.hasAbility Ability.G).isEmpty = true then
                ((s.opposing_player.lane ln).map fun c =>
                  some c.instance_id) ++ [none]
              else
                ((s.opposing_player.lane ln).filter fun c =>
                  c.keywords.hasAbility Ability.G).map fun c =>
                    some c.instance_id),
          a = { atype := ActionType.attack, origin := some fc.instance_id,
                target := t } := by
  simp only [State.attackActions, List.mem_flatMap]
  constructor
  · rintro ⟨ln, _, fc, hfc, ha2⟩
    obtain ⟨hfc_mem, hable⟩ := List.mem_filter.mp hfc
    obtain ⟨t, ht, he⟩ := List.mem_map.mp ha2
    exact ⟨ln, fc, hfc_mem, hable, t, ht, he.symm⟩
  · rintro ⟨ln, fc, hfc, hable, t, ht, rfl⟩
    exact ⟨ln, by cases ln <;> simp, fc, List.mem_filter.mpr ⟨hfc, hable⟩,
      List.mem_map.mpr ⟨t, ht, rfl⟩⟩

theorem atype_of_mem_summonActions {s : State} {a : Action}
    (h : a ∈ s.summonActions) : a.atype = ActionType.summon := by
  obtain ⟨c, _, _, _, ln, _, rfl⟩ := (mem_summonActions s a).mp h
  rfl

theorem atype_of_mem_useActions {s : State} {a : Action}
    (h : a ∈ s.useActions) : a.atype = ActionType.use := by
  rcases (mem_useActions s a).mp h with
    ⟨c, _, _, ⟨_, t, _, rfl⟩ | ⟨_, t, _, rfl⟩ | ⟨_, rfl⟩⟩ <;> rfl

theorem atype_of_mem_attackActions {s : State} {a : Action}
    (h : a ∈ s.attackActions) : a.atype = ActionType.attack := by
  obtain ⟨ln, fc, _, _, t, _, rfl⟩ := (mem_attackActions s a).mp h
  rfl

theorem mem_available_battle (s : State) (h : s.phase = Phase.battle)
    (a : Action) (ha : a.atype ≠ ActionType.pass) :
    a ∈ s.available_actions ↔
      a ∈ s.summonActions ++ s.attackActions ++ s.useActions := by
  simp only [State.available_actions, h]
  split
  case isTrue he =>
    rw [List.isEmpty_iff] at he
    rw [he]
    constructor
    · intro hm
      rw [List.mem_singleton] at hm
      subst hm
      exact absurd rfl ha
    · intro hm
      exact absurd hm (List.not_mem_nil a)
  case isFalse he => exact Iff.rfl

end EnumerationLemmasB

section MaskActionBlocks

theorem canonicalAction_summon (s : State) (i : Nat) (h1 : 1 ≤ i)
    (h16 : i ≤ 16) :
    s.canonicalAction i =
      (s.current_player.hand[(i - 1) / 2]?).map fun c =>
        { atype := ActionType.summon, origin := some c.instance_id,
          target := some ((i - 1) % 2) } := by
  simp only [State.canonicalAction]
  rw [if_neg (show ¬i = 0 by omega), if_pos (show i ≤ 16 by omega)]

theorem canonicalAction_use (s : State) (i : Nat) (h17 : 17 ≤ i)
    (h120 : i ≤ 120) :
    s.canonicalAction i =
      (s.current_player.hand[(i - 17) / 13]?).bind fun c =>
        if (i - 17) % 13 = 0 then
          some { atype := ActionType.use, origin := some c.instance_id,
                 target := none }
        else
          (if (i - 17) % 13 ≤ 3 then
            s.current_player.lanes.1[(i - 17) % 13 - 1]?
           else if (i - 17) % 13 ≤ 6 then
            s.current_player.lanes.2[(i - 17) % 13 - 4]?
           else if (i - 17) % 13 ≤ 9 then
            s.opposing_player.lanes.1[(i - 17) % 13 - 7]?
           else
            s.opposing_player.lanes.2[(i - 17) % 13 - 10]?).map fun t =>
            { atype := ActionType.use, origin := some c.instance_id,
              target := some t.instance_id } := by
  simp only [State.canonicalAction]
  rw [if_neg (show ¬i = 0 by omega), if_neg (show ¬i ≤ 16 by omega),
    if_pos (show i ≤ 120 by omega)]

theorem canonicalAction_attack (s : State) (i : Nat) (h121 : 121 ≤ i)
    (h144 : i ≤ 144) :
    s.canonicalAction i =
      (if (i - 121) / 4 ≤ 2 then s.current_player.lanes.1[(i - 121) / 4]?
       else s.current_player.lanes.2[(i - 121) / 4 - 3]?).bind fun c =>
        if (i - 121) % 4 = 0 then
          some { atype := ActionType.attack, origin := some c.instance_id,
                 target := none }
        else
          ((if (i - 121) / 4 ≤ 2 then s.opposing_player.lanes.1
            else s.opposing_player.lanes.2)[(i - 121) % 4 - 1]?).map fun t =>
            { atype := ActionType.attack, origin := some c.instance_id,
              target := some t.instance_id } := by
  simp only [State.canonicalAction]
  rw [if_neg (show ¬i = 0 by omega), if_neg (show ¬i ≤ 16 by omega),
    if_neg (show ¬i ≤ 120 by omega), if_pos (show i ≤ 144 by omega)]

theorem mem_big_of_hand {s : State} {c : Card}
    (h : c ∈ s.current_player.hand) :
    c ∈ s.current_player.hand ++ s.current_player.lanes.1 ++
        s.current_player.lanes.2 ++ s.opposing_player.lanes.1 ++
        s.opposing_player.lanes.2 := by
  simp [h]

theorem mem_big_of_cp1 {s : State} {c : Card}
    (h : c ∈ s.current_player.lanes.1) :
    c ∈ s.current_player.hand ++ s.current_player.lanes.1 ++
        s.current_player.lanes.2 ++ s.opposing_player.lanes.1 ++
        s.opposing_player.lanes.2 := by
  simp [h]

theorem mem_big_of_cp2 {s : State} {c : Card}
    (h : c ∈ s.current_player.lanes.2) :
    c ∈ s.current_player.hand ++ s.current_player.lanes.1 ++
        s.current_player.lanes.2 ++ s.opposing_player.lanes.1 ++
        s.opposing_player.lanes.2 := by
  simp [h]

theorem mem_big_of_op1 {s : State} {c : Card}
    (h : c ∈ s.opposing_player.lanes.1) :
    c ∈ s.current_player.hand ++ s.current_player.lanes.1 ++
        s.current_player.lanes.2 ++ s.opposing_player.lanes.1 ++
        s.opposing_player.lanes.2 := by
  simp [h]

theorem mem_big_of_op2 {s : State} {c : Card}
    (h : c ∈ s.opposing_player.lanes.2) :
    c ∈ s.current_player.hand ++ s.current_player.lanes.1 ++
        s.current_player.lanes.2 ++ s.opposing_player.lanes.1 ++
        s.opposing_player.lanes.2 := by
  simp [h]

theorem maskWrites_iff_summon (s : State) (hwf : s.WellFormed)
    (hph : s.phase = Phase.battle) (i : Nat) (hlo : 1 ≤ i) (hhi : i ≤ 16) :
    i ∈ s.maskWrites ↔
      ∃ a, s.canonicalAction i = some a ∧ a ∈ s.available_actions := by
  have hwf2 := hwf
  obtain ⟨hh8, hcl1, hcl2, hol1, hol2, hnd, hcr⟩ := hwf2
  rw [State.maskWrites, List.mem_append, canonicalAction_summon s i hlo hhi]
  constructor
  · intro h
    rcases h with h | h
    · rw [mem_handWrites] at h
      obtain ⟨idx, c, hm, hen, hd⟩ := h
      rcases hd with ⟨hct, hv⟩ | ⟨hct, hv⟩ | ⟨hct, hv⟩ | ⟨hct, hv⟩
      · rw [mem_validate_creature] at hv
        rcases hv with ⟨hlf, he⟩ | ⟨hrf, he⟩
        · have hidx : (i - 1) / 2 = idx := by omega
          have hmod : (i - 1) % 2 = 0 := by omega
          rw [hidx, hmod, hm]
          refine ⟨_, rfl, ?_⟩
          rw [mem_available_battle s hph _
            (fun hpa => ActionType.noConfusion hpa)]
          refine List.mem_append.mpr (Or.inl (List.mem_append.mpr (Or.inl ?_)))
          rw [mem_summonActions]
          exact ⟨c, List.getElem?_mem hm, hen, hct, Lane.left,
            of_decide_eq_true hlf, rfl⟩
        · have hidx : (i - 1) / 2 = idx := by omega
          have hmod : (i - 1) % 2 = 1 := by omega
          rw [hidx, hmod, hm]
          refine ⟨_, rfl, ?_⟩
          rw [mem_available_battle s hph _
            (fun hpa => ActionType.noConfusion hpa)]
          refine List.mem_append.mpr (Or.inl (List.mem_append.mpr (Or.inl ?_)))
          rw [mem_summonActions]
          exact ⟨c, List.getElem?_mem hm, hen, hct, Lane.right,
            of_decide_eq_true hrf, rfl⟩
      · rw [mem_validate_green_item] at hv
        rcases hv with ⟨j, hj, he⟩ | ⟨j, hj, he⟩ <;> omega
      · rw [mem_validate_red_item] at hv
        rcases hv with ⟨j, hj, he⟩ | ⟨j, hj, he⟩ <;> omega
      · rw [mem_validate_blue_item] at hv
        rcases hv with (⟨j, hj, he⟩ | ⟨j, hj, he⟩) | he <;> omega
    · have := boardWrites_bounds s hcl1 hcl2 hol1 hol2 i h
      omega
  · rintro ⟨a, ha, hav⟩
    rw [Option.map_eq_some'] at ha
    obtain ⟨c, hm, rfl⟩ := ha
    rw [mem_available_battle s hph _ (fun hpa => ActionType.noConfusion hpa)]
      at hav
    rcases List.mem_append.mp hav with hav | hav
    · rcases List.mem_append.mp hav with hs | hatk
      · rw [mem_summonActions] at hs
        obtain ⟨c', hc', hen', hct', ln, hlen, heq⟩ := hs
        have hiid : c.instance_id = c'.instance_id := by
          have := congrArg Action.origin heq
          simpa using this
        have hcc : c' = c := State.wf_inj s hwf _
          (mem_big_of_hand hc') _ (mem_big_of_hand (List.getElem?_mem hm))
          hiid.symm
        subst hcc
        have htgt : (i - 1) % 2 = ln.toNat := by
          have := congrArg Action.target heq
          simpa using this
        refine Or.inl ((mem_handWrites s i).mpr
          ⟨(i - 1) / 2, c', hm, hen', Or.inl ⟨hct', ?_⟩⟩)
        rw [mem_validate_creature]
        cases ln
        · have h0 : (i - 1) % 2 = 0 := htgt
          exact Or.inl ⟨decide_eq_true hlen, by omega⟩
        · have h1 : (i - 1) % 2 = 1 := htgt
          exact Or.inr ⟨decide_eq_true hlen, by omega⟩
      · exact absurd (atype_of_mem_attackActions hatk)
          (fun hx => ActionType.noConfusion hx)
    · exact absurd (atype_of_mem_useActions hav)
        (fun hx => ActionType.noConfusion hx)

end MaskActionBlocks

section MaskActionBlocksB

theorem guard_filter_empty_iff (l : List Card) :
    ((l.filter fun c => c.keywords.hasAbility Ability.G).isEmpty = true) ↔
    ∀ g ∈ l, g.keywords.hasAbility Ability.G = false := by
  rw [List.isEmpty_iff, List.filter_eq_nil_iff]
  constructor
  · intro h g hg
    have := h g hg
    rwa [Bool.not_eq_true] at this
  · intro h g hg hpa
    rw [h g hg] at hpa
    exact Bool.noConfusion hpa

theorem mem_boardWrites_slot (s : State) (hwf : s.WellFormed) (i : Nat)
    (hlo : 121 ≤ i) (hhi : i ≤ 144) :
    i ∈ s.boardWrites ↔
      ∃ c, (if (i - 121) / 4 ≤ 2 then s.current_player.lanes.1[(i - 121) / 4]?
            else s.current_player.lanes.2[(i - 121) / 4 - 3]?) = some c ∧
        c.able_to_attack = true ∧
        (((i - 121) % 4 = 0 ∧
            ∀ g ∈ (if (i - 121) / 4 ≤ 2 then s.opposing_player.lanes.1
                   else s.opposing_player.lanes.2),
              g.keywords.hasAbility Ability.G = false) ∨
         (1 ≤ (i - 121) % 4 ∧
            ∃ t, (if (i - 121) / 4 ≤ 2 then s.opposing_player.lanes.1
                  else s.opposing_player.lanes.2)[(i - 121) % 4 - 1]? = some t ∧
              ((∀ g ∈ (if (i - 121) / 4 ≤ 2 then s.opposing_player.lanes.1
                       else s.opposing_player.lanes.2),
                  g.keywords.hasAbility Ability.G = false) ∨
               t.keywords.hasAbility Ability.G = true))) := by
  obtain ⟨hh8, hcl1, hcl2, hol1, hol2, hnd, hcr⟩ := hwf
  rw [mem_boardWrites]
  constructor
  · rintro ⟨off, ln, holn, pos, c, hm, hab, hd⟩
    have hpos : pos < (s.current_player.lane ln).length := by
      by_contra hge
      rw [List.getElem?_eq_none (by omega)] at hm
      exact Option.noConfusion hm
    rcases holn with ⟨rfl, rfl⟩ | ⟨rfl, rfl⟩
    · have hpos2 : pos ≤ 2 := by
        have : (s.current_player.lane Lane.left).length ≤ 3 := hcl1
        omega
      rcases hd with ⟨hng, he | ⟨j, hj, he⟩⟩ | ⟨j, g, hg, hG, he⟩
      · have hsl : (i - 121) / 4 ≤ 2 := by omega
        have hslot : (i - 121) / 4 = pos := by omega
        rw [if_pos hsl, if_pos hsl, hslot]
        exact ⟨c, hm, hab, Or.inl ⟨by omega, hng⟩⟩
      · have hjl : j ≤ 2 := by
          have : (s.opposing_player.lane Lane.left).length ≤ 3 := hol1
          omega
        have hsl : (i - 121) / 4 ≤ 2 := by omega
        have hslot : (i - 121) / 4 = pos := by omega
        have hsub : (i - 121) % 4 - 1 = j := by omega
        rw [if_pos hsl, if_pos hsl, hslot, hsub]
        refine ⟨c, hm, hab, Or.inr ⟨by omega, ?_⟩⟩
        have hj1 : j < s.opposing_player.lanes.1.length := hj
        exact ⟨s.opposing_player.lanes.1[j],
          List.getElem?_eq_getElem hj1, Or.inl hng⟩
      · have hj : j < (s.opposing_player.lane Lane.left).length := by
          by_contra hge
          rw [List.getElem?_eq_none (by omega)] at hg
          exact Option.noConfusion hg
        have hjl : j ≤ 2 := by
          have : (s.opposing_player.lane Lane.left).length ≤ 3 := hol1
          omega
        have hsl : (i - 121) / 4 ≤ 2 := by omega
        have hslot : (i - 121) / 4 = pos := by omega
        have hsub : (i - 121) % 4 - 1 = j := by omega
        rw [if_pos hsl, if_pos hsl, hslot, hsub]
        exact ⟨c, hm, hab, Or.inr ⟨by omega, g, hg, Or.inr hG⟩⟩
    · have hpos2 : pos ≤ 2 := by
        have : (s.current_player.lane Lane.right).length ≤ 3 := hcl2
        omega
      rcases hd with ⟨hng, he | ⟨j, hj, he⟩⟩ | ⟨j, g, hg, hG, he⟩
      · have hsl : ¬(i - 121) / 4 ≤ 2 := by omega
        have hslot : (i - 121) / 4 - 3 = pos := by omega
        rw [if_neg hsl, if_neg hsl, hslot]
        exact ⟨c, hm, hab, Or.inl ⟨by omega, hng⟩⟩
      · have hjl : j ≤ 2 := by
          have : (s.opposing_player.lane Lane.right).length ≤ 3 := hol2
          omega
        have hsl : ¬(i - 121) / 4 ≤ 2 := by omega
        have hslot : (i - 121) / 4 - 3 = pos := by omega
        have hsub : (i - 121) % 4 - 1 = j := by omega
        rw [if_neg hsl, if_neg hsl, hslot, hsub]
        refine ⟨c, hm, hab, Or.inr ⟨by omega, ?_⟩⟩
        have hj1 : j < s.opposing_player.lanes.2.length := hj
        exact ⟨s.opposing_player.lanes.2[j],
          List.getElem?_eq_getElem hj1, Or.inl hng⟩
      · have hj : j < (s.opposing_player.lane Lane.right).length := by
          by_contra hge
          rw [List.getElem?_eq_none (by omega)] at hg
          exact Option.noConfusion hg
        have hjl : j ≤ 2 := by
          have : (s.opposing_player.lane Lane.right).length ≤ 3 := hol2
          omega
        have hsl : ¬(i - 121) / 4 ≤ 2 := by omega
        have hslot : (i - 121) / 4 - 3 = pos := by omega
        have hsub : (i - 121) % 4 - 1 = j := by omega
        rw [if_neg hsl, if_neg hsl, hslot, hsub]
        exact ⟨c, hm, hab, Or.inr ⟨by omega, g, hg, Or.inr hG⟩⟩
  · rintro ⟨c, hm, hab, hd⟩
    by_cases hsl : (i - 121) / 4 ≤ 2
    · rw [if_pos hsl] at hm
      refine ⟨0, Lane.left, Or.inl ⟨rfl, rfl⟩, (i - 121) / 4, c, hm, hab, ?_⟩
      rw [if_pos hsl] at hd
      rcases hd with ⟨hz, hng⟩ | ⟨h1, t, ht, hng | hG⟩
      · exact Or.inl ⟨hng, Or.inl (by omega)⟩
      · have hjl : (i - 121) % 4 - 1 < s.opposing_player.lanes.1.length := by
          by_contra hge
          rw [List.getElem?_eq_none (by omega)] at ht
          exact Option.noConfusion ht
        exact Or.inl ⟨hng, Or.inr ⟨(i - 121) % 4 - 1, hjl, by omega⟩⟩
      · exact Or.inr ⟨(i - 121) % 4 - 1, t, ht, hG, by omega⟩
    · rw [if_neg hsl] at hm
      have hsl5 : (i - 121) / 4 ≤ 5 := by omega
      refine ⟨3, Lane.right, Or.inr ⟨rfl, rfl⟩, (i - 121) / 4 - 3, c, hm, hab,
        ?_⟩
      rw [if_neg hsl] at hd
      rcases hd with ⟨hz, hng⟩ | ⟨h1, t, ht, hng | hG⟩
      · exact Or.inl ⟨hng, Or.inl (by omega)⟩
      · have hjl : (i - 121) % 4 - 1 < s.opposing_player.lanes.2.length := by
          by_contra hge
          rw [List.getElem?_eq_none (by omega)] at ht
          exact Option.noConfusion ht
        exact Or.inl ⟨hng, Or.inr ⟨(i - 121) % 4 - 1, hjl, by omega⟩⟩
      · exact Or.inr ⟨(i - 121) % 4 - 1, t, ht, hG, by omega⟩

end MaskActionBlocksB

section MaskActionBlocksC

theorem maskWrites_iff_attack (s : State) (hwf : s.WellFormed)
    (hph : s.phase = Phase.battle) (i : Nat) (hlo : 121 ≤ i) (hhi : i ≤ 144) :
    i ∈ s.maskWrites ↔
      ∃ a, s.canonicalAction i = some a ∧ a ∈ s.available_actions := by
  have hwf2 := hwf
  obtain ⟨hh8, hcl1, hcl2, hol1, hol2, hnd, hcr⟩ := hwf2
  have hcp12 := (State.wf_zone_ne s hwf).2.2.2.2.1
  rw [State.maskWrites, List.mem_append, canonicalAction_attack s i hlo hhi,
    mem_boardWrites_slot s hwf i hlo hhi]
  constructor
  · intro h
    rcases h with h | h
    · have := handWrites_bounds s hh8 hcl1 hcl2 hol1 hol2 i h
      omega
    · obtain ⟨c, hm, hab, hd⟩ := h
      by_cases hsl : (i - 121) / 4 ≤ 2
      · rw [if_pos hsl] at hm
        rw [if_pos hsl] at hd
        rw [if_pos hsl, if_pos hsl]
        rw [hm]
        rcases hd with ⟨hz, hng⟩ | ⟨h1, t, ht, hcase⟩
        · refine ⟨{ atype := ActionType.attack, origin := some c.instance_id,
                    target := none }, ?_, ?_⟩
          · rw [Option.bind_eq_some]
            exact ⟨c, rfl, by rw [if_pos hz]⟩
          · rw [mem_available_battle s hph _
              (fun hpa => ActionType.noConfusion hpa)]
            refine List.mem_append.mpr (Or.inl (List.mem_append.mpr
              (Or.inr ?_)))
            rw [mem_attackActions]
            refine ⟨Lane.left, c, List.getElem?_mem hm, hab, none, ?_, rfl⟩
            rw [if_pos ((guard_filter_empty_iff
              (s.opposing_player.lane Lane.left)).mpr hng)]
            exact List.mem_append.mpr (Or.inr (List.mem_singleton.mpr rfl))
        · refine ⟨{ atype := ActionType.attack, origin := some c.instance_id,
                    target := some t.instance_id }, ?_, ?_⟩
          · rw [Option.bind_eq_some]
            refine ⟨c, rfl, ?_⟩
            rw [if_neg (by omega), ht]
            rfl
          · rw [mem_available_battle s hph _
              (fun hpa => ActionType.noConfusion hpa)]
            refine List.mem_append.mpr (Or.inl (List.mem_append.mpr
              (Or.inr ?_)))
            rw [mem_attackActions]
            refine ⟨Lane.left, c, List.getElem?_mem hm, hab,
              some t.instance_id, ?_, rfl⟩
            rcases hcase with hng | hG
            · rw [if_pos ((guard_filter_empty_iff
                (s.opposing_player.lane Lane.left)).mpr hng)]
              exact List.mem_append.mpr (Or.inl (List.mem_map.mpr
                ⟨t, List.getElem?_mem ht, rfl⟩))
            · have hmemf : t ∈ (s.opposing_player.lane Lane.left).filter
                  (fun c => c.keywords.hasAbility Ability.G) :=
                List.mem_filter.mpr ⟨List.getElem?_mem ht, hG⟩
              have hnemp : ¬((s.opposing_player.lane Lane.left).filter
                  (fun c => c.keywords.hasAbility Ability.G)).isEmpty = true := by
                intro hemp
                rw [List.isEmpty_iff] at hemp
                rw [hemp] at hmemf
                exact absurd hmemf (List.not_mem_nil t)
              rw [if_neg hnemp]
              exact List.mem_map.mpr ⟨t, hmemf, rfl⟩
      · rw [if_neg hsl] at hm
        rw [if_neg hsl] at hd
        rw [if_neg hsl, if_neg hsl]
        rw [hm]
        rcases hd with ⟨hz, hng⟩ | ⟨h1, t, ht, hcase⟩
        · refine ⟨{ atype := ActionType.attack, origin := some c.instance_id,
                    target := none }, ?_, ?_⟩
          · rw [Option.bind_eq_some]
            exact ⟨c, rfl, by rw [if_pos hz]⟩
          · rw [mem_available_battle s hph _
              (fun hpa => ActionType.noConfusion hpa)]
            refine List.mem_append.mpr (Or.inl (List.mem_append.mpr
              (Or.inr ?_)))
            rw [mem_attackActions]
            refine ⟨Lane.right, c, List.getElem?_mem hm, hab, none, ?_, rfl⟩
            rw [if_pos ((guard_filter_empty_iff
              (s.opposing_player.lane Lane.right)).mpr hng)]
            exact List.mem_append.mpr (Or.inr (List.mem_singleton.mpr rfl))
        · refine ⟨{ atype := ActionType.attack, origin := some c.instance_id,
                    target := some t.instance_id }, ?_, ?_⟩
          · rw [Option.bind_eq_some]
            refine ⟨c, rfl, ?_⟩
            rw [if_neg (by omega), ht]
            rfl
          · rw [mem_available_battle s hph _
              (fun hpa => ActionType.noConfusion hpa)]
            refine List.mem_append.mpr (Or.inl (List.mem_append.mpr
              (Or.inr ?_)))
            rw [mem_attackActions]
            refine ⟨Lane.right, c, List.getElem?_mem hm, hab,
              some t.instance_id, ?_, rfl⟩
            rcases hcase with hng | hG
            · rw [if_pos ((guard_filter_empty_iff
                (s.opposing_player.lane Lane.right)).mpr hng)]
              exact List.mem_append.mpr (Or.inl (List.mem_map.mpr
                ⟨t, List.getElem?_mem ht, rfl⟩))
            · have hmemf : t ∈ (s.opposing_player.lane Lane.right).filter
                  (fun c => c.keywords.hasAbility Ability.G) :=
                List.mem_filter.mpr ⟨List.getElem?_mem ht, hG⟩
              have hnemp : ¬((s.opposing_player.lane Lane.right).filter
                  (fun c => c.keywords.hasAbility Ability.G)).isEmpty = true := by
                intro hemp
                rw [List.isEmpty_iff] at hemp
                rw [hemp] at hmemf
                exact absurd hmemf (List.not_mem_nil t)
              rw [if_neg hnemp]
              exact List.mem_map.mpr ⟨t, hmemf, rfl⟩
  · rintro ⟨a, ha, hav⟩
    rw [Option.bind_eq_some] at ha
    obtain ⟨fc, hfc, hfa⟩ := ha
    have hat : a.atype = ActionType.attack := by
      by_cases hz : (i - 121) % 4 = 0
      · rw [if_pos hz] at hfa
        obtain rfl := Option.some.inj hfa
        rfl
      · have hfa2 := hfa
        rw [if_neg hz, Option.map_eq_some'] at hfa2
        obtain ⟨t, _, heq⟩ := hfa2
        rw [← heq]
    rw [mem_available_battle s hph a
      (by rw [hat]; exact fun hx => ActionType.noConfusion hx)] at hav
    rcases List.mem_append.mp hav with hav | hav
    · rcases List.mem_append.mp hav with hs | hatk
      · have h2 := atype_of_mem_summonActions hs
        rw [hat] at h2
        exact ActionType.noConfusion h2
      · rw [mem_attackActions] at hatk
        obtain ⟨ln, fc', hfc', hable', tv, htv, heq⟩ := hatk
        subst heq
        by_cases hsl : (i - 121) / 4 ≤ 2
        · rw [if_pos hsl] at hfc
          have hfcmem : fc ∈ s.current_player.lanes.1 := List.getElem?_mem hfc
          by_cases hz : (i - 121) % 4 = 0
          · rw [if_pos hz] at hfa
            have heq2 := Option.some.inj hfa
            have hiid : fc.instance_id = fc'.instance_id := by
              have := congrArg Action.origin heq2
              simpa using this
            have htv_none : tv = none := by
              have := congrArg Action.target heq2
              simpa using this.symm
            subst htv_none
            have hfc'big : fc' ∈ s.current_player.hand ++
                s.current_player.lanes.1 ++ s.current_player.lanes.2 ++
                s.opposing_player.lanes.1 ++ s.opposing_player.lanes.2 := by
              cases ln
              · exact mem_big_of_cp1 hfc'
              · exact mem_big_of_cp2 hfc'
            have hfcfc : fc' = fc := State.wf_inj s hwf _ hfc'big _
              (mem_big_of_cp1 hfcmem) hiid.symm
            subst hfcfc
            have hln : ln = Lane.left := by
              cases ln
              · rfl
              · exact absurd rfl (hcp12 fc' hfcmem fc' hfc')
            subst hln
            have hng : ∀ g ∈ s.opposing_player.lanes.1,
                g.keywords.hasAbility Ability.G = false := by
              by_cases hemp : ((s.opposing_player.lane Lane.left).filter
                  (fun c => c.keywords.hasAbility Ability.G)).isEmpty = true
              · exact (guard_filter_empty_iff _).mp hemp
              · rw [if_neg hemp] at htv
                obtain ⟨g, _, habs⟩ := List.mem_map.mp htv
                exact absurd habs (fun hx => Option.noConfusion hx)
            refine Or.inr ⟨fc', ?_, hable', Or.inl ⟨hz, ?_⟩⟩
            · rw [if_pos hsl]
              exact hfc
            · rw [if_pos hsl]
              exact hng
          · rw [if_neg hz, Option.map_eq_some'] at hfa
            obtain ⟨t, ht, heq2⟩ := hfa
            rw [if_pos hsl] at ht
            have hiid : fc.instance_id = fc'.instance_id := by
              have := congrArg Action.origin heq2
              simpa using this
            have htv_eq : some t.instance_id = tv := by
              have := congrArg Action.target heq2
              simpa using this
            subst htv_eq
            have hfc'big : fc' ∈ s.current_player.hand ++
                s.current_player.lanes.1 ++ s.current_player.lanes.2 ++
                s.opposing_player.lanes.1 ++ s.opposing_player.lanes.2 := by
              cases ln
              · exact mem_big_of_cp1 hfc'
              · exact mem_big_of_cp2 hfc'
            have hfcfc : fc' = fc := State.wf_inj s hwf _ hfc'big _
              (mem_big_of_cp1 hfcmem) hiid.symm
            subst hfcfc
            have hln : ln = Lane.left := by
              cases ln
              · rfl
              · exact absurd rfl (hcp12 fc' hfcmem fc' hfc')
            subst hln
            by_cases hemp : ((s.opposing_player.lane Lane.left).filter
                (fun c => c.keywords.hasAbility Ability.G)).isEmpty = true
            · refine Or.inr ⟨fc', by rw [if_pos hsl]; exact hfc, hable',
                Or.inr ⟨by omega, ?_⟩⟩
              rw [if_pos hsl]
              exact ⟨t, ht, Or.inl ((guard_filter_empty_iff _).mp hemp)⟩
            · rw [if_neg hemp] at htv
              obtain ⟨g, hgf, hgeq⟩ := List.mem_map.mp htv
              have hgiid : g.instance_id = t.instance_id := by
                simpa using hgeq
              obtain ⟨hgmem, hgG⟩ := List.mem_filter.mp hgf
              have hgt : g = t := State.wf_inj s hwf _ (mem_big_of_op1 hgmem)
                _ (mem_big_of_op1 (List.getElem?_mem ht)) hgiid
              refine Or.inr ⟨fc', by rw [if_pos hsl]; exact hfc, hable',
                Or.inr ⟨by omega, ?_⟩⟩
              rw [if_pos hsl]
              exact ⟨t, ht, Or.inr (hgt ▸ hgG)⟩
        · rw [if_neg hsl] at hfc
          have hfcmem : fc ∈ s.current_player.lanes.2 := List.getElem?_mem hfc
          by_cases hz : (i - 121) % 4 = 0
          · rw [if_pos hz] at hfa
            have heq2 := Option.some.inj hfa
            have hiid : fc.instance_id = fc'.instance_id := by
              have := congrArg Action.origin heq2
              simpa using this
            have htv_none : tv = none := by
              have := congrArg Action.target heq2
              simpa using this.symm
            subst htv_none
            have hfc'big : fc' ∈ s.current_player.hand ++
                s.current_player.lanes.1 ++ s.current_player.lanes.2 ++
                s.opposing_player.lanes.1 ++ s.opposing_player.lanes.2 := by
              cases ln
              · exact mem_big_of_cp1 hfc'
              · exact mem_big_of_cp2 hfc'
            have hfcfc : fc' = fc := State.wf_inj s hwf _ hfc'big _
              (mem_big_of_cp2 hfcmem) hiid.symm
            subst hfcfc
            have hln : ln = Lane.right := by
              cases ln
              · exact absurd rfl (hcp12 fc' hfc' fc' hfcmem)
              · rfl
            subst hln
            have hng : ∀ g ∈ s.opposing_player.lanes.2,
                g.keywords.hasAbility Ability.G = false := by
              by_cases hemp : ((s.opposing_player.lane Lane.right).filter
                  (fun c => c.keywords.hasAbility Ability.G)).isEmpty = true
              · exact (guard_filter_empty_iff _).mp hemp
              · rw [if_neg hemp] at htv
                obtain ⟨g, _, habs⟩ := List.mem_map.mp htv
                exact absurd habs (fun hx => Option.noConfusion hx)
            refine Or.inr ⟨fc', ?_, hable', Or.inl ⟨hz, ?_⟩⟩
            · rw [if_neg hsl]
              exact hfc
            · rw [if_neg hsl]
              exact hng
          · rw [if_neg hz, Option.map_eq_some'] at hfa
            obtain ⟨t, ht, heq2⟩ := hfa
            rw [if_neg hsl] at ht
            have hiid : fc.instance_id = fc'.instance_id := by
              have := congrArg Action.origin heq2
              simpa using this
            have htv_eq : some t.instance_id = tv := by
              have := congrArg Action.target heq2
              simpa using this
            subst htv_eq
            have hfc'big : fc' ∈ s.current_player.hand ++
                s.current_player.lanes.1 ++ s.current_player.lanes.2 ++
                s.opposing_player.lanes.1 ++ s.opposing_player.lanes.2 := by
              cases ln
              · exact mem_big_of_cp1 hfc'
              · exact mem_big_of_cp2 hfc'
            have hfcfc : fc' = fc := State.wf_inj s hwf _ hfc'big _
              (mem_big_of_cp2 hfcmem) hiid.symm
            subst hfcfc
            have hln : ln = Lane.right := by
              cases ln
              · exact absurd rfl (hcp12 fc' hfc' fc' hfcmem)
              · rfl
            subst hln
            by_cases hemp : ((s.opposing_player.lane Lane.right).filter
                (fun c => c.keywords.hasAbility Ability.G)).isEmpty = true
            · refine Or.inr ⟨fc', by rw [if_neg hsl]; exact hfc, hable',
                Or.inr ⟨by omega, ?_⟩⟩
              rw [if_neg hsl]
              exact ⟨t, ht, Or.inl ((guard_filter_empty_iff _).mp hemp)⟩
            · rw [if_neg hemp] at htv
              obtain ⟨g, hgf, hgeq⟩ := List.mem_map.mp htv
              have hgiid : g.instance_id = t.instance_id := by
                simpa using hgeq
              obtain ⟨hgmem, hgG⟩ := List.mem_filter.mp hgf
              have hgt : g = t := State.wf_inj s hwf _ (mem_big_of_op2 hgmem)
                _ (mem_big_of_op2 (List.getElem?_mem ht)) hgiid
              refine Or.inr ⟨fc', by rw [if_neg hsl]; exact hfc, hable',
                Or.inr ⟨by omega, ?_⟩⟩
              rw [if_neg hsl]
              exact ⟨t, ht, Or.inr (hgt ▸ hgG)⟩
    · have h2 := atype_of_mem_useActions hav
      rw [hat] at h2
      exact ActionType.noConfusion h2

end MaskActionBlocksC

section MaskActionBlocksD

theorem lt_of_getElem?_some {α : Type} {l : List α} {j : Nat} {c : α}
    (h : l[j]? = some c) : j < l.length := by
  by_contra hge
  rw [List.getElem?_eq_none (by omega)] at h
  exact Option.noConfusion h

theorem maskWrites_iff_use (s : State) (hwf : s.WellFormed)
    (hph : s.phase = Phase.battle) (i : Nat) (hlo : 17 ≤ i) (hhi : i ≤ 120) :
    i ∈ s.maskWrites ↔
      ∃ a, s.canonicalAction i = some a ∧ a ∈ s.available_actions := by
  have hwf2 := hwf
  obtain ⟨hh8, hcl1, hcl2, hol1, hol2, hnd, hcr⟩ := hwf2
  have hne := State.wf_zone_ne s hwf
  rw [State.maskWrites, List.mem_append, canonicalAction_use s i hlo hhi]
  constructor
  · intro h
    rcases h with h | h
    · rw [mem_handWrites] at h
      obtain ⟨idx, c, hm, hen, hd⟩ := h
      rcases hd with ⟨hct, hv⟩ | ⟨hct, hv⟩ | ⟨hct, hv⟩ | ⟨hct, hv⟩
      · rw [mem_validate_creature] at hv
        have hidx : idx < 8 := by
          have := lt_of_getElem?_some hm
          omega
        rcases hv with ⟨_, he⟩ | ⟨_, he⟩ <;> omega
      · rw [mem_validate_green_item] at hv
        rcases hv with ⟨j, hj, he⟩ | ⟨j, hj, he⟩
        · have hjl : j ≤ 2 := by omega
          have hidx : (i - 17) / 13 = idx := by omega
          have hz : ¬(i - 17) % 13 = 0 := by omega
          have h3 : (i - 17) % 13 ≤ 3 := by omega
          have hj1 : (i - 17) % 13 - 1 = j := by omega
          obtain ⟨t, ht⟩ : ∃ t, s.current_player.lanes.1[j]? = some t :=
            ⟨_, List.getElem?_eq_getElem hj⟩
          rw [hidx, hm]
          refine ⟨{ atype := ActionType.use, origin := some c.instance_id,
                    target := some t.instance_id }, ?_, ?_⟩
          · rw [Option.bind_eq_some]
            refine ⟨c, rfl, ?_⟩
            rw [if_neg hz, if_pos h3, hj1, ht]
            rfl
          · rw [mem_available_battle s hph _
              (fun hpa => ActionType.noConfusion hpa)]
            refine List.mem_append.mpr (Or.inr ?_)
            rw [mem_useActions]
            exact ⟨c, List.getElem?_mem hm, hen, Or.inl ⟨hct, t,
              List.mem_append.mpr (Or.inl (List.getElem?_mem ht)), rfl⟩⟩
        · have hjl : j ≤ 2 := by omega
          have hidx : (i - 17) / 13 = idx := by omega
          have hz : ¬(i - 17) % 13 = 0 := by omega
          have h3 : ¬(i - 17) % 13 ≤ 3 := by omega
          have h6 : (i - 17) % 13 ≤ 6 := by omega
          have hj1 : (i - 17) % 13 - 4 = j := by omega
          obtain ⟨t, ht⟩ : ∃ t, s.current_player.lanes.2[j]? = some t :=
            ⟨_, List.getElem?_eq_getElem hj⟩
          rw [hidx, hm]
          refine ⟨{ atype := ActionType.use, origin := some c.instance_id,
                    target := some t.instance_id }, ?_, ?_⟩
          · rw [Option.bind_eq_some]
            refine ⟨c, rfl, ?_⟩
            rw [if_neg hz, if_neg h3, if_pos h6, hj1, ht]
            rfl
          · rw [mem_available_battle s hph _
              (fun hpa => ActionType.noConfusion hpa)]
            refine List.mem_append.mpr (Or.inr ?_)
            rw [mem_useActions]
            exact ⟨c, List.getElem?_mem hm, hen, Or.inl ⟨hct, t,
              List.mem_append.mpr (Or.inr (List.getElem?_mem ht)), rfl⟩⟩
      · rw [mem_validate_red_item] at hv
        rcases hv with ⟨j, hj, he⟩ | ⟨j, hj, he⟩
        · have hjl : j ≤ 2 := by omega
          have hidx : (i - 17) / 13 = idx := by omega
          have hz : ¬(i - 17) % 13 = 0 := by omega
          have h3 : ¬(i - 17) % 13 ≤ 3 := by omega
          have h6 : ¬(i - 17) % 13 ≤ 6 := by omega
          have h9 : (i - 17) % 13 ≤ 9 := by omega
          have hj1 : (i - 17) % 13 - 7 = j := by omega
          obtain ⟨t, ht⟩ : ∃ t, s.opposing_player.lanes.1[j]? = some t :=
            ⟨_, List.getElem?_eq_getElem hj⟩
          rw [hidx, hm]
          refine ⟨{ atype := ActionType.use, origin := some c.instance_id,
                    target := some t.instance_id }, ?_, ?_⟩
          · rw [Option.bind_eq_some]
            refine ⟨c, rfl, ?_⟩
            rw [if_neg hz, if_neg h3, if_neg h6, if_pos h9, hj1, ht]
            rfl
          · rw [mem_available_battle s hph _
              (fun hpa => ActionType.noConfusion hpa)]
            refine List.mem_append.mpr (Or.inr ?_)
            rw [mem_useActions]
            exact ⟨c, List.getElem?_mem hm, hen, Or.inr (Or.inl ⟨Or.inl hct, t,
              List.mem_append.mpr (Or.inl (List.getElem?_mem ht)), rfl⟩)⟩
        · have hjl : j ≤ 2 := by omega
          have hidx : (i - 17) / 13 = idx := by omega
          have hz : ¬(i - 17) % 13 = 0 := by omega
          have h3 : ¬(i - 17) % 13 ≤ 3 := by omega
          have h6 : ¬(i - 17) % 13 ≤ 6 := by omega
          have h9 : ¬(i - 17) % 13 ≤ 9 := by omega
          have hj1 : (i - 17) % 13 - 10 = j := by omega
          obtain ⟨t, ht⟩ : ∃ t, s.opposing_player.lanes.2[j]? = some t :=
            ⟨_, List.getElem?_eq_getElem hj⟩
          rw [hidx, hm]
          refine ⟨{ atype := ActionType.use, origin := some c.instance_id,
                    target := some t.instance_id }, ?_, ?_⟩
          · rw [Option.bind_eq_some]
            refine ⟨c, rfl, ?_⟩
            rw [if_neg hz, if_neg h3, if_neg h6, if_neg h9, hj1, ht]
            rfl
          · rw [mem_available_battle s hph _
              (fun hpa => ActionType.noConfusion hpa)]
            refine List.mem_append.mpr (Or.inr ?_)
            rw [mem_useActions]
            exact ⟨c, List.getElem?_mem hm, hen, Or.inr (Or.inl ⟨Or.inl hct, t,
              List.mem_append.mpr (Or.inr (List.getElem?_mem ht)), rfl⟩)⟩
      · rw [mem_validate_blue_item] at hv
        rcases hv with (⟨j, hj, he⟩ | ⟨j, hj, he⟩) | he
        · have hjl : j ≤ 2 := by omega
          have hidx : (i - 17) / 13 = idx := by omega
          have hz : ¬(i - 17) % 13 = 0 := by omega
          have h3 : ¬(i - 17) % 13 ≤ 3 := by omega
          have h6 : ¬(i - 17) % 13 ≤ 6 := by omega
          have h9 : (i - 17) % 13 ≤ 9 := by omega
          have hj1 : (i - 17) % 13 - 7 = j := by omega
          obtain ⟨t, ht⟩ : ∃ t, s.opposing_player.lanes.1[j]? = some t :=
            ⟨_, List.getElem?_eq_getElem hj⟩
          rw [hidx, hm]
          refine ⟨{ atype := ActionType.use, origin := some c.instance_id,
                    target := some t.instance_id }, ?_, ?_⟩
          · rw [Option.bind_eq_some]
            refine ⟨c, rfl, ?_⟩
            rw [if_neg hz, if_neg h3, if_neg h6, if_pos h9, hj1, ht]
            rfl
          · rw [mem_available_battle s hph _
              (fun hpa => ActionType.noConfusion hpa)]
            refine List.mem_append.mpr (Or.inr ?_)
            rw [mem_useActions]
            exact ⟨c, List.getElem?_mem hm, hen, Or.inr (Or.inl ⟨Or.inr hct, t,
              List.mem_append.mpr (Or.inl (List.getElem?_mem ht)), rfl⟩)⟩
        · have hjl : j ≤ 2 := by omega
          have hidx : (i - 17) / 13 = idx := by omega
          have hz : ¬(i - 17) % 13 = 0 := by omega
          have h3 : ¬(i - 17) % 13 ≤ 3 := by omega
          have h6 : ¬(i - 17) % 13 ≤ 6 := by omega
          have h9 : ¬(i - 17) % 13 ≤ 9 := by omega
          have hj1 : (i - 17) % 13 - 10 = j := by omega
          obtain ⟨t, ht⟩ : ∃ t, s.opposing_player.lanes.2[j]? = some t :=
            ⟨_, List.getElem?_eq_getElem hj⟩
          rw [hidx, hm]
          refine ⟨{ atype := ActionType.use, origin := some c.instance_id,
                    target := some t.instance_id }, ?_, ?_⟩
          · rw [Option.bind_eq_some]
            refine ⟨c, rfl, ?_⟩
            rw [if_neg hz, if_neg h3, if_neg h6, if_neg h9, hj1, ht]
            rfl
          · rw [mem_available_battle s hph _
              (fun hpa => ActionType.noConfusion hpa)]
            refine List.mem_append.mpr (Or.inr ?_)
            rw [mem_useActions]
            exact ⟨c, List.getElem?_mem hm, hen, Or.inr (Or.inl ⟨Or.inr hct, t,
              List.mem_append.mpr (Or.inr (List.getElem?_mem ht)), rfl⟩)⟩
        · have hidx : (i - 17) / 13 = idx := by omega
          have hz : (i - 17) % 13 = 0 := by omega
          rw [hidx, hm]
          refine ⟨{ atype := ActionType.use, origin := some c.instance_id,
                    target := none }, ?_, ?_⟩
          · rw [Option.bind_eq_some]
            exact ⟨c, rfl, by rw [if_pos hz]⟩
          · rw [mem_available_battle s hph _
              (fun hpa => ActionType.noConfusion hpa)]
            refine List.mem_append.mpr (Or.inr ?_)
            rw [mem_useActions]
            exact ⟨c, List.getElem?_mem hm, hen, Or.inr (Or.inr ⟨hct, rfl⟩)⟩
    · have := boardWrites_bounds s hcl1 hcl2 hol1 hol2 i h
      omega
  · rintro ⟨a, ha, hav⟩
    rw [Option.bind_eq_some] at ha
    obtain ⟨c, hm, hfa⟩ := ha
    have hcbig := mem_big_of_hand (s := s) (List.getElem?_mem hm)
    have hat : a.atype = ActionType.use := by
      by_cases hz : (i - 17) % 13 = 0
      · rw [if_pos hz] at hfa
        obtain rfl := Option.some.inj hfa
        rfl
      · have hfa2 := hfa
        rw [if_neg hz, Option.map_eq_some'] at hfa2
        obtain ⟨t, _, heq⟩ := hfa2
        rw [← heq]
    rw [mem_available_battle s hph a
      (by rw [hat]; exact fun hx => ActionType.noConfusion hx)] at hav
    rcases List.mem_append.mp hav with hav | hav
    · rcases List.mem_append.mp hav with hs | hatk
      · have h2 := atype_of_mem_summonActions hs
        rw [hat] at h2
        exact ActionType.noConfusion h2
      · have h2 := atype_of_mem_attackActions hatk
        rw [hat] at h2
        exact ActionType.noConfusion h2
    · rw [mem_useActions] at hav
      obtain ⟨c', hc', hen', hd⟩ := hav
      by_cases hz : (i - 17) % 13 = 0
      · rw [if_pos hz] at hfa
        obtain rfl := Option.some.inj hfa
        rcases hd with ⟨hct, t', htm', heq⟩ | ⟨hct, t', htm', heq⟩ | ⟨hct, heq⟩
        · exact Option.noConfusion (congrArg Action.target heq)
        · exact Option.noConfusion (congrArg Action.target heq)
        · have hiid : c.instance_id = c'.instance_id := by
            have := congrArg Action.origin heq
            simpa using this
          have hcc : c' = c := State.wf_inj s hwf _ (mem_big_of_hand hc') _
            hcbig hiid.symm
          subst hcc
          refine Or.inl ((mem_handWrites s i).mpr
            ⟨(i - 17) / 13, c', hm, hen', Or.inr (Or.inr (Or.inr
              ⟨hct, ?_⟩))⟩)
          rw [mem_validate_blue_item]
          exact Or.inr (by omega)
      · rw [if_neg hz, Option.map_eq_some'] at hfa
        obtain ⟨t, ht, rfl⟩ := hfa
        have horig : ∀ (c'' t'' : Card),
            ({ atype := ActionType.use, origin := some c.instance_id,
               target := some t.instance_id } : Action) =
              { atype := ActionType.use, origin := some c''.instance_id,
                target := some t''.instance_id } →
            c.instance_id = c''.instance_id ∧
              t.instance_id = t''.instance_id := by
          intro c'' t'' heq
          constructor
          · have := congrArg Action.origin heq
            simpa using this
          · have := congrArg Action.target heq
            simpa using this
        by_cases h3 : (i - 17) % 13 ≤ 3
        · rw [if_pos h3] at ht
          have htcp1 : t ∈ s.current_player.lanes.1 := List.getElem?_mem ht
          rcases hd with ⟨hct, t', htm', heq⟩ | ⟨hct, t', htm', heq⟩ |
            ⟨hct, heq⟩
          · obtain ⟨hiid, _⟩ := horig c' t' heq
            have hcc : c' = c := State.wf_inj s hwf _ (mem_big_of_hand hc') _
              hcbig hiid.symm
            subst hcc
            refine Or.inl ((mem_handWrites s i).mpr
              ⟨(i - 17) / 13, c', hm, hen', Or.inr (Or.inl ⟨hct, ?_⟩)⟩)
            rw [mem_validate_green_item]
            exact Or.inl ⟨(i - 17) % 13 - 1, lt_of_getElem?_some ht, by omega⟩
          · obtain ⟨_, htd⟩ := horig c' t' heq
            rcases List.mem_append.mp htm' with htm' | htm'
            · exact absurd htd (hne.2.2.2.2.2.1 t htcp1 t' htm')
            · exact absurd htd (hne.2.2.2.2.2.2.1 t htcp1 t' htm')
          · exact Option.noConfusion (congrArg Action.target heq.symm)
        · by_cases h6 : (i - 17) % 13 ≤ 6
          · rw [if_neg h3, if_pos h6] at ht
            have htcp2 : t ∈ s.current_player.lanes.2 := List.getElem?_mem ht
            rcases hd with ⟨hct, t', htm', heq⟩ | ⟨hct, t', htm', heq⟩ |
              ⟨hct, heq⟩
            · obtain ⟨hiid, _⟩ := horig c' t' heq
              have hcc : c' = c := State.wf_inj s hwf _ (mem_big_of_hand hc')
                _ hcbig hiid.symm
              subst hcc
              refine Or.inl ((mem_handWrites s i).mpr
                ⟨(i - 17) / 13, c', hm, hen', Or.inr (Or.inl ⟨hct, ?_⟩)⟩)
              rw [mem_validate_green_item]
              exact Or.inr ⟨(i - 17) % 13 - 4, lt_of_getElem?_some ht,
                by omega⟩
            · obtain ⟨_, htd⟩ := horig c' t' heq
              rcases List.mem_append.mp htm' with htm' | htm'
              · exact absurd htd (hne.2.2.2.2.2.2.2.1 t htcp2 t' htm')
              · exact absurd htd (hne.2.2.2.2.2.2.2.2.1 t htcp2 t' htm')
            · exact Option.noConfusion (congrArg Action.target heq.symm)
          · by_cases h9 : (i - 17) % 13 ≤ 9
            · rw [if_neg h3, if_neg h6, if_pos h9] at ht
              have htop1 : t ∈ s.opposing_player.lanes.1 :=
                List.getElem?_mem ht
              rcases hd with ⟨hct, t', htm', heq⟩ | ⟨hct, t', htm', heq⟩ |
                ⟨hct, heq⟩
              · obtain ⟨_, htd⟩ := horig c' t' heq
                rcases List.mem_append.mp htm' with htm' | htm'
                · exact absurd htd.symm
                    (hne.2.2.2.2.2.1 t' htm' t htop1)
                · exact absurd htd.symm
                    (hne.2.2.2.2.2.2.2.1 t' htm' t htop1)
              · obtain ⟨hiid, _⟩ := horig c' t' heq
                have hcc : c' = c := State.wf_inj s hwf _
                  (mem_big_of_hand hc') _ hcbig hiid.symm
                subst hcc
                rcases hct with hct | hct
                · refine Or.inl ((mem_handWrites s i).mpr
                    ⟨(i - 17) / 13, c', hm, hen', Or.inr (Or.inr (Or.inl
                      ⟨hct, ?_⟩))⟩)
                  rw [mem_validate_red_item]
                  exact Or.inl ⟨(i - 17) % 13 - 7, lt_of_getElem?_some ht,
                    by omega⟩
                · refine Or.inl ((mem_handWrites s i).mpr
                    ⟨(i - 17) / 13, c', hm, hen', Or.inr (Or.inr (Or.inr
                      ⟨hct, ?_⟩))⟩)
                  rw [mem_validate_blue_item]
                  exact Or.inl (Or.inl ⟨(i - 17) % 13 - 7,
                    lt_of_getElem?_some ht, by omega⟩)
              · exact Option.noConfusion (congrArg Action.target heq.symm)
            · rw [if_neg h3, if_neg h6, if_neg h9] at ht
              have htop2 : t ∈ s.opposing_player.lanes.2 :=
                List.getElem?_mem ht
              rcases hd with ⟨hct, t', htm', heq⟩ | ⟨hct, t', htm', heq⟩ |
                ⟨hct, heq⟩
              · obtain ⟨_, htd⟩ := horig c' t' heq
                rcases List.mem_append.mp htm' with htm' | htm'
                · exact absurd htd.symm
                    (hne.2.2.2.2.2.2.1 t' htm' t htop2)
                · exact absurd htd.symm
                    (hne.2.2.2.2.2.2.2.2.1 t' htm' t htop2)
              · obtain ⟨hiid, _⟩ := horig c' t' heq
                have hcc : c' = c := State.wf_inj s hwf _
                  (mem_big_of_hand hc') _ hcbig hiid.symm
                subst hcc
                rcases hct with hct | hct
                · refine Or.inl ((mem_handWrites s i).mpr
                    ⟨(i - 17) / 13, c', hm, hen', Or.inr (Or.inr (Or.inl
                      ⟨hct, ?_⟩))⟩)
                  rw [mem_validate_red_item]
                  exact Or.inr ⟨(i - 17) % 13 - 10, lt_of_getElem?_some ht,
                    by omega⟩
                · refine Or.inl ((mem_handWrites s i).mpr
                    ⟨(i - 17) / 13, c', hm, hen', Or.inr (Or.inr (Or.inr
                      ⟨hct, ?_⟩))⟩)
                  rw [mem_validate_blue_item]
                  exact Or.inl (Or.inr ⟨(i - 17) % 13 - 10,
                    lt_of_getElem?_some ht, by omega⟩)
              · exact Option.noConfusion (congrArg Action.target heq.symm)

end MaskActionBlocksD

section GuardValidation

theorem doAttack_guard_invalid_target (s : State) (fc : Card)
    (target : Option Card) (ln : Lane)
    (hct : fc.ctype = CardType.creature)
    (hmem : fc ∈ s.current_player.lane ln)
    (hother : ln = Lane.right →
      s.current_player.lanes.1.any
        (fun c => c.instance_id = fc.instance_id) = false)
    (hgpos : 0 < ((s.opposing_player.lane ln).filter fun c =>
      c.keywords.hasAbility Ability.G).length)
    (hcontains : ((((s.opposing_player.lane ln).filter fun c =>
        c.keywords.hasAbility Ability.G).map fun c =>
          some c.instance_id).contains
        (target.map fun c => c.instance_id)) = false) :
    s.doAttack (some fc) target = (s, some EngineError.malformedAction) := by
  simp only [State.doAttack]
  rw [if_neg (fun hx => hx hct)]
  split
  · rfl
  · rename_i ln2 heq
    cases ln
    · have hany1 : s.current_player.lanes.1.any
          (fun c => c.instance_id = fc.instance_id) = true :=
        List.any_eq_true.mpr ⟨fc, hmem, by simp⟩
      rw [if_pos hany1] at heq
      obtain rfl := Option.some.inj heq
      rw [if_pos hgpos, hcontains]
      rw [if_pos (show (!false) = true from rfl)]
    · have hany1 := hother rfl
      have hany2 : s.current_player.lanes.2.any
          (fun c => c.instance_id = fc.instance_id) = true :=
        List.any_eq_true.mpr ⟨fc, hmem, by simp⟩
      rw [hany1, if_neg Bool.false_ne_true, if_pos hany2] at heq
      obtain rfl := Option.some.inj heq
      rw [if_pos hgpos, hcontains]
      rw [if_pos (show (!false) = true from rfl)]

theorem doAttack_guard_valid_target (s : State) (fc g : Card) (ln : Lane)
    (hct : fc.ctype = CardType.creature)
    (hgct : g.ctype = CardType.creature)
    (hmem : fc ∈ s.current_player.lane ln)
    (hother : ln = Lane.right →
      s.current_player.lanes.1.any
        (fun c => c.instance_id = fc.instance_id) = false)
    (hable : fc.able_to_attack = true)
    (hgmem : g ∈ (s.opposing_player.lane ln).filter fun c =>
      c.keywords.hasAbility Ability.G) :
    (s.doAttack (some fc) (some g)).2 = none := by
  have hgpos : 0 < ((s.opposing_player.lane ln).filter fun c =>
      c.keywords.hasAbility Ability.G).length :=
    List.length_pos.mpr (List.ne_nil_of_mem hgmem)
  have hcont : ((((s.opposing_player.lane ln).filter fun c =>
      c.keywords.hasAbility Ability.G).map fun c =>
        some c.instance_id).contains
      ((some g).map fun c => c.instance_id)) = true :=
    List.elem_eq_true_of_mem (List.mem_map.mpr ⟨g, hgmem, rfl⟩)
  simp only [State.doAttack]
  rw [if_neg (fun hx => hx hct)]
  split
  · rename_i heq
    cases ln
    · have hany1 : s.current_player.lanes.1.any
          (fun c => c.instance_id = fc.instance_id) = true :=
        List.any_eq_true.mpr ⟨fc, hmem, by simp⟩
      rw [if_pos hany1] at heq
      exact Option.noConfusion heq
    · have hany1 := hother rfl
      have hany2 : s.current_player.lanes.2.any
          (fun c => c.instance_id = fc.instance_id) = true :=
        List.any_eq_true.mpr ⟨fc, hmem, by simp⟩
      rw [hany1, if_neg Bool.false_ne_true, if_pos hany2] at heq
      exact Option.noConfusion heq
  · rename_i ln2 heq
    cases ln
    · have hany1 : s.current_player.lanes.1.any
          (fun c => c.instance_id = fc.instance_id) = true :=
        List.any_eq_true.mpr ⟨fc, hmem, by simp⟩
      rw [if_pos hany1] at heq
      obtain rfl := Option.some.inj heq
      rw [if_pos hgpos, hcont]
      rw [if_neg (show ¬(!true) = true from Bool.false_ne_true), hable]
      rw [if_neg (show ¬(!true) = true from Bool.false_ne_true)]
      rw [if_pos hgct]
    · have hany1 := hother rfl
      have hany2 : s.current_player.lanes.2.any
          (fun c => c.instance_id = fc.instance_id) = true :=
        List.any_eq_true.mpr ⟨fc, hmem, by simp⟩
      rw [hany1, if_neg Bool.false_ne_true, if_pos hany2] at heq
      obtain rfl := Option.some.inj heq
      rw [if_pos hgpos, hcont]
      rw [if_neg (show ¬(!true) = true from Bool.false_ne_true), hable]
      rw [if_neg (show ¬(!true) = true from Bool.false_ne_true)]
      rw [if_pos hgct]

end GuardValidation

section MaskBitLemmas

theorem maskWrites_iff_canonical (s : State) (hwf : s.WellFormed)
    (hph : s.phase = Phase.battle) (i : Nat) (hlo : 1 ≤ i) (hhi : i < 145) :
    i ∈ s.maskWrites ↔
      ∃ a, s.canonicalAction i = some a ∧ a ∈ s.available_actions := by
  by_cases h16 : i ≤ 16
  · exact maskWrites_iff_summon s hwf hph i hlo h16
  · by_cases h120 : i ≤ 120
    · exact maskWrites_iff_use s hwf hph i (by omega) h120
    · exact maskWrites_iff_attack s hwf hph i (by omega) (by omega)

theorem some_ite_eq_one (p : Prop) [Decidable p] :
    (some (if p then (1 : Int) else 0) = some 1) ↔ p := by
  constructor
  · intro h
    by_contra hn
    rw [if_neg hn] at h
    have := Option.some.inj h
    norm_num at this
  · intro h
    rw [if_pos h]

theorem action_mask_zero (s : State) (hph : s.phase = Phase.battle) :
    s.action_mask[0]? = some 1 := by
  by_cases hit : s.items = true
  · rw [State.action_mask_get s hph hit 0 (by omega)]
    simp
  · rw [Bool.not_eq_true] at hit
    rw [State.action_mask_get_noitems s hph hit 0 (by omega)]
    simp

theorem pass_mem_available_iff (s : State) (hph : s.phase = Phase.battle) :
    ({ atype := ActionType.pass } : Action) ∈ s.available_actions ↔
      s.available_actions = [{ atype := ActionType.pass }] := by
  constructor
  · intro h
    simp only [State.available_actions, hph] at h ⊢
    by_cases he : (s.summonActions ++ s.attackActions ++
        s.useActions).isEmpty = true
    · rw [if_pos he]
    · rw [if_neg he] at h
      rcases List.mem_append.mp h with h | h
      · rcases List.mem_append.mp h with h | h
        · exact absurd (atype_of_mem_summonActions h)
            (fun hx => ActionType.noConfusion hx)
        · exact absurd (atype_of_mem_attackActions h)
            (fun hx => ActionType.noConfusion hx)
      · exact absurd (atype_of_mem_useActions h)
          (fun hx => ActionType.noConfusion hx)
  · intro h
    rw [h]
    exact List.mem_singleton.mpr rfl

theorem guard_mask_bits (s : State) (hwf : s.WellFormed) (ln : Lane)
    (fc : Card) (pos : Nat)
    (hfc : (s.current_player.lane ln)[pos]? = some fc)
    (hable : fc.able_to_attack = true)
    (g0 : Card) (hg0 : g0 ∈ s.opposing_player.lane ln)
    (hg0G : g0.keywords.hasAbility Ability.G = true) :
    ((121 + (pos + (if ln = Lane.left then 0 else 3)) * 4) ∉ s.maskWrites) ∧
    (∀ j, j < (s.opposing_player.lane ln).length →
      ((121 + (pos + (if ln = Lane.left then 0 else 3)) * 4 + 1 + j)
          ∈ s.maskWrites ↔
        ∃ g, (s.opposing_player.lane ln)[j]? = some g ∧
          g.keywords.hasAbility Ability.G = true)) := by
  have hwf2 := hwf
  obtain ⟨hh8, hcl1, hcl2, hol1, hol2, hnd, hcr⟩ := hwf2
  have hpos : pos < (s.current_player.lane ln).length := lt_of_getElem?_some hfc
  have hpos2 : pos ≤ 2 := by
    cases ln
    · have : (s.current_player.lane Lane.left).length ≤ 3 := hcl1
      omega
    · have : (s.current_player.lane Lane.right).length ≤ 3 := hcl2
      omega
  have hopl : (s.opposing_player.lane ln).length ≤ 3 := by
    cases ln
    · exact hol1
    · exact hol2
  cases ln
  · rw [if_pos rfl]
    constructor
    · intro h
      rw [State.maskWrites, List.mem_append] at h
      rcases h with h | h
      · have := handWrites_bounds s hh8 hcl1 hcl2 hol1 hol2 _ h
        omega
      · rw [mem_boardWrites_slot s hwf _ (by omega) (by omega)] at h
        obtain ⟨c, hm, hab, hd⟩ := h
        have hsl : (121 + (pos + 0) * 4 - 121) / 4 ≤ 2 := by omega
        rw [if_pos hsl] at hm hd
        rcases hd with ⟨hz, hng⟩ | ⟨h1, t, ht, hcase⟩
        · have := hng g0 hg0
          rw [hg0G] at this
          exact Bool.noConfusion this
        · omega
    · intro j hj
      have hj2 : j ≤ 2 := by omega
      constructor
      · intro h
        rw [State.maskWrites, List.mem_append] at h
        rcases h with h | h
        · have := handWrites_bounds s hh8 hcl1 hcl2 hol1 hol2 _ h
          omega
        · rw [mem_boardWrites_slot s hwf _ (by omega) (by omega)] at h
          obtain ⟨c, hm, hab, hd⟩ := h
          have hsl : (121 + (pos + 0) * 4 + 1 + j - 121) / 4 ≤ 2 := by omega
          rw [if_pos hsl] at hm hd
          rcases hd with ⟨hz, hng⟩ | ⟨h1, t, ht, hcase⟩
          · omega
          · have hidx : (121 + (pos + 0) * 4 + 1 + j - 121) % 4 - 1 = j := by
              omega
            rw [hidx] at ht
            rcases hcase with hng | hGt
            · have := hng g0 hg0
              rw [hg0G] at this
              exact Bool.noConfusion this
            · exact ⟨t, ht, hGt⟩
      · rintro ⟨g, hgj, hGg⟩
        rw [State.maskWrites, List.mem_append]
        refine Or.inr ((mem_boardWrites_slot s hwf _ (by omega)
          (by omega)).mpr ?_)
        have hsl : (121 + (pos + 0) * 4 + 1 + j - 121) / 4 ≤ 2 := by omega
        have hslot : (121 + (pos + 0) * 4 + 1 + j - 121) / 4 = pos := by omega
        have hidx : (121 + (pos + 0) * 4 + 1 + j - 121) % 4 - 1 = j := by
          omega
        rw [if_pos hsl, if_pos hsl, hslot, hidx]
        exact ⟨fc, hfc, hable, Or.inr ⟨by omega, g, hgj, Or.inr hGg⟩⟩
  · rw [if_neg (fun hx => Lane.noConfusion hx)]
    constructor
    · intro h
      rw [State.maskWrites, List.mem_append] at h
      rcases h with h | h
      · have := handWrites_bounds s hh8 hcl1 hcl2 hol1 hol2 _ h
        omega
      · rw [mem_boardWrites_slot s hwf _ (by omega) (by omega)] at h
        obtain ⟨c, hm, hab, hd⟩ := h
        have hsl : ¬(121 + (pos + 3) * 4 - 121) / 4 ≤ 2 := by omega
        rw [if_neg hsl] at hm hd
        rcases hd with ⟨hz, hng⟩ | ⟨h1, t, ht, hcase⟩
        · have := hng g0 hg0
          rw [hg0G] at this
          exact Bool.noConfusion this
        · omega
    · intro j hj
      have hj2 : j ≤ 2 := by omega
      constructor
      · intro h
        rw [State.maskWrites, List.mem_append] at h
        rcases h with h | h
        · have := handWrites_bounds s hh8 hcl1 hcl2 hol1 hol2 _ h
          omega
        · rw [mem_boardWrites_slot s hwf _ (by omega) (by omega)] at h
          obtain ⟨c, hm, hab, hd⟩ := h
          have hsl : ¬(121 + (pos + 3) * 4 + 1 + j - 121) / 4 ≤ 2 := by omega
          rw [if_neg hsl] at hm hd
          rcases hd with ⟨hz, hng⟩ | ⟨h1, t, ht, hcase⟩
          · omega
          · have hidx : (121 + (pos + 3) * 4 + 1 + j - 121) % 4 - 1 = j := by
              omega
            rw [hidx] at ht
            rcases hcase with hng | hGt
            · have := hng g0 hg0
              rw [hg0G] at this
              exact Bool.noConfusion this
            · exact ⟨t, ht, hGt⟩
      · rintro ⟨g, hgj, hGg⟩
        rw [State.maskWrites, List.mem_append]
        refine Or.inr ((mem_boardWrites_slot s hwf _ (by omega)
          (by omega)).mpr ?_)
        have hsl : ¬(121 + (pos + 3) * 4 + 1 + j - 121) / 4 ≤ 2 := by omega
        have hslot : (121 + (pos + 3) * 4 + 1 + j - 121) / 4 - 3 = pos := by
          omega
        have hidx : (121 + (pos + 3) * 4 + 1 + j - 121) % 4 - 1 = j := by
          omega
        rw [if_neg hsl, if_neg hsl, hslot, hidx]
        exact ⟨fc, hfc, hable, Or.inr ⟨by omega, g, hgj, Or.inr hGg⟩⟩

end MaskBitLemmas

/-- Concrete Guard creature standing in the opposing left lane. -/
def guardCreature : Card :=
  { id := 6, instance_id := 7, ctype := .creature, cost := 1, attack := 1,
    defense := 3, keywords := { g := true }, player_hp := 0, enemy_hp := 0,
    card_draw := 0 }

/-- Concrete battle state where the acting player has an able attacker in
the left lane and the opposing left lane holds a non-Guard creature in
front of a Guard creature. -/
def sGuard : State :=
  { items := true, phase := .battle, turn := 5,
    was_last_action_invalid := false,
    players := ({ id := .first, mana := 5, lanes := ([costlyAttacker], []) },
                { id := .second,
                  lanes := ([bigDefender, guardCreature], []) }),
    current := .first, winner := none, instance_counter := 9 }

instance (s : State) : Decidable s.WellFormed := by
  unfold State.WellFormed
  infer_instance

set_option maxRecDepth 8192 in
/-- C1 counterexample: in the state `sFreeAttack` an attack is available,
so Pass is not among the legal actions, yet mask bit 0 (the Pass bit) is
set: the claimed per-index equivalence fails at index 0, which the source
hard-codes to 1. -/
theorem mask_pass_bit_counterexample :
    sFreeAttack.phase = Phase.battle ∧
    sFreeAttack.action_mask[0]? = some 1 ∧
    ({ atype := ActionType.pass } : Action) ∉ sFreeAttack.available_actions := by
  refine ⟨rfl, ?_, ?_⟩ <;> decide

/-- C1 (amended): during battle the legality mask has length 145 with
items enabled and 41 with items disabled, bit 0 is always 1 while Pass is
legal exactly when it is the only legal action, and every other bit is 1
exactly when the canonical action of that index exists and appears in the
legal-action list (under the 145-wide layout, shifted by 104 above index
16 when items are disabled). -/
theorem mask_matches_available_actions (s : State) (hwf : s.WellFormed)
    (hph : s.phase = Phase.battle) :
    s.action_mask.length = (if s.items then 145 else 41) ∧
    s.action_mask[0]? = some 1 ∧
    (s.items = true → ∀ i, 1 ≤ i → i < 145 →
      (s.action_mask[i]? = some 1 ↔
        ∃ a, s.canonicalAction i = some a ∧ a ∈ s.available_actions)) ∧
    (s.items = false → ∀ i, 1 ≤ i → i < 41 →
      (s.action_mask[i]? = some 1 ↔
        ∃ a, s.canonicalActionNoItems i = some a ∧
          a ∈ s.available_actions)) ∧
    (({ atype := ActionType.pass } : Action) ∈ s.available_actions ↔
      s.available_actions = [{ atype := ActionType.pass }]) := by
  refine ⟨State.action_mask_length s hph, action_mask_zero s hph, ?_, ?_,
    pass_mem_available_iff s hph⟩
  · intro hit i h1 h145
    rw [State.action_mask_get s hph hit i h145, some_ite_eq_one,
      or_iff_right (by omega : ¬i = 0)]
    exact maskWrites_iff_canonical s hwf hph i h1 h145
  · intro hif i h1 h41
    rw [State.action_mask_get_noitems s hph hif i h41]
    by_cases h17 : i < 17
    · rw [if_pos h17, some_ite_eq_one, or_iff_right (by omega : ¬i = 0)]
      simp only [State.canonicalActionNoItems]
      rw [if_pos h17]
      exact maskWrites_iff_canonical s hwf hph i h1 (by omega)
    · rw [if_neg h17, some_ite_eq_one,
        or_iff_right (by omega : ¬i + 104 = 0)]
      simp only [State.canonicalActionNoItems]
      rw [if_neg h17, if_pos h41]
      exact maskWrites_iff_canonical s hwf hph (i + 104) (by omega)
        (by omega)

set_option maxRecDepth 8192 in
/-- C1 witness: the amended mask equivalence instantiated at the concrete
battle state `sFreeAttack`. -/
theorem mask_matches_available_actions_witness :
    sFreeAttack.WellFormed ∧ sFreeAttack.phase = Phase.battle ∧
    (sFreeAttack.action_mask.length =
        (if sFreeAttack.items then 145 else 41) ∧
      sFreeAttack.action_mask[0]? = some 1 ∧
      (sFreeAttack.items = true → ∀ i, 1 ≤ i → i < 145 →
        (sFreeAttack.action_mask[i]? = some 1 ↔
          ∃ a, sFreeAttack.canonicalAction i = some a ∧
            a ∈ sFreeAttack.available_actions)) ∧
      (sFreeAttack.items = false → ∀ i, 1 ≤ i → i < 41 →
        (sFreeAttack.action_mask[i]? = some 1 ↔
          ∃ a, sFreeAttack.canonicalActionNoItems i = some a ∧
            a ∈ sFreeAttack.available_actions)) ∧
      (({ atype := ActionType.pass } : Action) ∈
          sFreeAttack.available_actions ↔
        sFreeAttack.available_actions =
          [{ atype := ActionType.pass }])) :=
  ⟨by decide, rfl,
    mask_matches_available_actions sFreeAttack (by decide) rfl⟩

/-- C2: when the opposing lane facing an able attacker holds at least one
Guard creature, the legal attack targets for that attacker are exactly
the Guard creatures of that lane, in the explicit enumeration, in the
bitmask (no-target bit clear, per-creature bits set exactly on Guards),
and in `_do_attack` validation (no-target and non-Guard targets are
malformed, Guard targets pass validation). -/
theorem guard_restricts_attack_targets (s : State) (hwf : s.WellFormed)
    (hph : s.phase = Phase.battle) (ln : Lane) (fc : Card) (pos : Nat)
    (hfc : (s.current_player.lane ln)[pos]? = some fc)
    (hable : fc.able_to_attack = true)
    (g0 : Card) (hg0 : g0 ∈ s.opposing_player.lane ln)
    (hg0G : g0.keywords.hasAbility Ability.G = true) :
    (∀ t : Option Nat,
      ({ atype := ActionType.attack, origin := some fc.instance_id,
         target := t } : Action) ∈ s.available_actions ↔
        ∃ g ∈ s.opposing_player.lane ln,
          g.keywords.hasAbility Ability.G = true ∧ t = some g.instance_id) ∧
    (s.items = true →
      s.action_mask[121 + (pos + (if ln = Lane.left then 0 else 3)) * 4]? =
          some 0 ∧
      (∀ j, j < (s.opposing_player.lane ln).length →
        (s.action_mask[121 + (pos + (if ln = Lane.left then 0 else 3)) * 4
            + 1 + j]? = some 1 ↔
          ∃ g, (s.opposing_player.lane ln)[j]? = some g ∧
            g.keywords.hasAbility Ability.G = true))) ∧
    s.doAttack (some fc) none = (s, some EngineError.malformedAction) ∧
    (∀ tc ∈ s.opposing_player.lane ln,
      tc.keywords.hasAbility Ability.G = false →
        s.doAttack (some fc) (some tc) =
          (s, some EngineError.malformedAction)) ∧
    (∀ g ∈ s.opposing_player.lane ln,
      g.keywords.hasAbility Ability.G = true →
        (s.doAttack (some fc) (some g)).2 = none) := by
  have hwf2 := hwf
  obtain ⟨hh8, hcl1, hcl2, hol1, hol2, hnd, hcr⟩ := hwf2
  have hcp12 := (State.wf_zone_ne s hwf).2.2.2.2.1
  have hfcm : fc ∈ s.current_player.lane ln := List.getElem?_mem hfc
  have hfcbig : fc ∈ s.current_player.hand ++ s.current_player.lanes.1 ++
      s.current_player.lanes.2 ++ s.opposing_player.lanes.1 ++
      s.opposing_player.lanes.2 := by
    cases ln
    · exact mem_big_of_cp1 hfcm
    · exact mem_big_of_cp2 hfcm
  have hct : fc.ctype = CardType.creature := by
    refine hcr fc ?_
    cases ln
    · have h1 : fc ∈ s.current_player.lanes.1 := hfcm
      simp [h1]
    · have h1 : fc ∈ s.current_player.lanes.2 := hfcm
      simp [h1]
  have hopbig : ∀ x ∈ s.opposing_player.lane ln,
      x ∈ s.current_player.hand ++ s.current_player.lanes.1 ++
        s.current_player.lanes.2 ++ s.opposing_player.lanes.1 ++
        s.opposing_player.lanes.2 := by
    intro x hx
    cases ln
    · exact mem_big_of_op1 hx
    · exact mem_big_of_op2 hx
  have hopct : ∀ x ∈ s.opposing_player.lane ln,
      x.ctype = CardType.creature := by
    intro x hx
    refine hcr x ?_
    cases ln
    · have h1 : x ∈ s.opposing_player.lanes.1 := hx
      simp [h1]
    · have h1 : x ∈ s.opposing_player.lanes.2 := hx
      simp [h1]
  have hmf0 : g0 ∈ (s.opposing_player.lane ln).filter fun c =>
      c.keywords.hasAbility Ability.G := List.mem_filter.mpr ⟨hg0, hg0G⟩
  have hnemp : ¬((s.opposing_player.lane ln).filter fun c =>
      c.keywords.hasAbility Ability.G).isEmpty = true := by
    intro hemp
    rw [List.isEmpty_iff] at hemp
    rw [hemp] at hmf0
    exact absurd hmf0 (List.not_mem_nil g0)
  have hgpos : 0 < ((s.opposing_player.lane ln).filter fun c =>
      c.keywords.hasAbility Ability.G).length :=
    List.length_pos.mpr (List.ne_nil_of_mem hmf0)
  have hother : ln = Lane.right → s.current_player.lanes.1.any
      (fun c => c.instance_id = fc.instance_id) = false := by
    intro hlr
    subst hlr
    rw [Bool.eq_false_iff]
    intro hany
    obtain ⟨c, hc1, hdec⟩ := List.any_eq_true.mp hany
    exact absurd (of_decide_eq_true hdec) (hcp12 c hc1 fc hfcm)
  refine ⟨?_, ?_, ?_, ?_, ?_⟩
  · intro t
    constructor
    · intro h
      rw [mem_available_battle s hph _
        (fun hpa => ActionType.noConfusion hpa)] at h
      rcases List.mem_append.mp h with h | h
      · rcases List.mem_append.mp h with h | h
        · exact absurd (atype_of_mem_summonActions h)
            (fun hx => ActionType.noConfusion hx)
        · rw [mem_attackActions] at h
          obtain ⟨ln2, fc', hfc', hable', tv, htv, heq⟩ := h
          have hiid : fc.instance_id = fc'.instance_id := by
            have := congrArg Action.origin heq
            simpa using this
          have htveq : tv = t := by
            have := congrArg Action.target heq
            simpa using this.symm
          subst htveq
          have hfc'big : fc' ∈ s.current_player.hand ++
              s.current_player.lanes.1 ++ s.current_player.lanes.2 ++
              s.opposing_player.lanes.1 ++ s.opposing_player.lanes.2 := by
            cases ln2
            · exact mem_big_of_cp1 hfc'
            · exact mem_big_of_cp2 hfc'
          have hff : fc' = fc := State.wf_inj s hwf _ hfc'big _ hfcbig
            hiid.symm
          subst hff
          have hlneq : ln2 = ln := by
            cases ln <;> cases ln2
            · rfl
            · exact absurd rfl (hcp12 fc' hfcm fc' hfc')
            · exact absurd rfl (hcp12 fc' hfc' fc' hfcm)
            · rfl
          subst hlneq
          rw [if_neg hnemp] at htv
          obtain ⟨g, hgf, hgeq⟩ := List.mem_map.mp htv
          obtain ⟨hgm, hgG⟩ := List.mem_filter.mp hgf
          exact ⟨g, hgm, hgG, hgeq.symm⟩
      · exact absurd (atype_of_mem_useActions h)
          (fun hx => ActionType.noConfusion hx)
    · rintro ⟨g, hgm, hGg, rfl⟩
      rw [mem_available_battle s hph _
        (fun hpa => ActionType.noConfusion hpa)]
      refine List.mem_append.mpr (Or.inl (List.mem_append.mpr (Or.inr ?_)))
      rw [mem_attackActions]
      refine ⟨ln, fc, hfcm, hable, some g.instance_id, ?_, rfl⟩
      rw [if_neg hnemp]
      exact List.mem_map.mpr ⟨g, List.mem_filter.mpr ⟨hgm, hGg⟩, rfl⟩
  · intro hit
    obtain ⟨hb0, hbj⟩ := guard_mask_bits s hwf ln fc pos hfc hable g0 hg0
      hg0G
    have hpos : pos < (s.current_player.lane ln).length :=
      lt_of_getElem?_some hfc
    have hpos2 : pos ≤ 2 := by
      cases ln
      · have : (s.current_player.lane Lane.left).length ≤ 3 := hcl1
        omega
      · have : (s.current_player.lane Lane.right).length ≤ 3 := hcl2
        omega
    have hoff : (if ln = Lane.left then 0 else 3) ≤ 3 := by
      split <;> omega
    have hopl : (s.opposing_player.lane ln).length ≤ 3 := by
      cases ln
      · exact hol1
      · exact hol2
    constructor
    · rw [State.action_mask_get s hph hit _ (by omega)]
      rw [if_neg (not_or.mpr ⟨by omega, hb0⟩)]
    · intro j hj
      rw [State.action_mask_get s hph hit _ (by omega), some_ite_eq_one,
        or_iff_right (by omega :
          ¬121 + (pos + (if ln = Lane.left then 0 else 3)) * 4 + 1 + j = 0)]
      exact hbj j hj
  · refine doAttack_guard_invalid_target s fc none ln hct hfcm hother
      hgpos ?_
    rw [Bool.eq_false_iff]
    intro h
    have hm := List.mem_of_elem_eq_true h
    obtain ⟨g, _, habs⟩ := List.mem_map.mp hm
    exact Option.noConfusion habs
  · intro tc htc hncG
    refine doAttack_guard_invalid_target s fc (some tc) ln hct hfcm hother
      hgpos ?_
    rw [Bool.eq_false_iff]
    intro h
    have hm := List.mem_of_elem_eq_true h
    obtain ⟨g, hgf, hgeq⟩ := List.mem_map.mp hm
    obtain ⟨hgm, hgG⟩ := List.mem_filter.mp hgf
    have hgt : g = tc := State.wf_inj s hwf _ (hopbig g hgm) _
      (hopbig tc htc) (by simpa using hgeq)
    rw [hgt, hncG] at hgG
    exact Bool.noConfusion hgG
  · intro g hgm hgG
    exact doAttack_guard_valid_target s fc g ln hct (hopct g hgm) hfcm
      hother hable (List.mem_filter.mpr ⟨hgm, hgG⟩)

set_option maxRecDepth 8192 in
/-- C2 witness: the Guard-enforcement theorem instantiated at the
concrete battle state `sGuard`, where `costlyAttacker` faces
`bigDefender` (no Guard) and `guardCreature` (Guard) in the left lane. -/
theorem guard_restricts_attack_targets_witness :
    sGuard.WellFormed ∧ sGuard.phase = Phase.battle ∧
    (sGuard.current_player.lane Lane.left)[0]? = some costlyAttacker ∧
    costlyAttacker.able_to_attack = true ∧
    guardCreature ∈ sGuard.opposing_player.lane Lane.left ∧
    guardCreature.keywords.hasAbility Ability.G = true ∧
    ((∀ t : Option Nat,
      ({ atype := ActionType.attack,
         origin := some costlyAttacker.instance_id,
         target := t } : Action) ∈ sGuard.available_actions ↔
        ∃ g ∈ sGuard.opposing_player.lane Lane.left,
          g.keywords.hasAbility Ability.G = true ∧
            t = some g.instance_id) ∧
    (sGuard.items = true →
      sGuard.action_mask[121 +
          (0 + (if Lane.left = Lane.left then 0 else 3)) * 4]? = some 0 ∧
      (∀ j, j < (sGuard.opposing_player.lane Lane.left).length →
        (sGuard.action_mask[121 +
            (0 + (if Lane.left = Lane.left then 0 else 3)) * 4
            + 1 + j]? = some 1 ↔
          ∃ g, (sGuard.opposing_player.lane Lane.left)[j]? = some g ∧
            g.keywords.hasAbility Ability.G = true))) ∧
    sGuard.doAttack (some costlyAttacker) none =
      (sGuard, some EngineError.malformedAction) ∧
    (∀ tc ∈ sGuard.opposing_player.lane Lane.left,
      tc.keywords.hasAbility Ability.G = false →
        sGuard.doAttack (some costlyAttacker) (some tc) =
          (sGuard, some EngineError.malformedAction)) ∧
    (∀ g ∈ sGuard.opposing_player.lane Lane.left,
      g.keywords.hasAbility Ability.G = true →
        (sGuard.doAttack (some costlyAttacker) (some g)).2 = none)) :=
  ⟨by decide, rfl, rfl, rfl, by decide, rfl,
    guard_restricts_attack_targets sGuard (by decide) rfl Lane.left
      costlyAttacker 0 rfl rfl guardCreature (by decide) rfl⟩

/-- C3 counterexample: using the green item in hand with no target is a
failing action (the invalid-action flag is set), yet the item disappears
from the hand, so the state is not left unchanged apart from the flag. -/
theorem use_failure_loses_card_counterexample :
    sGreenItem.current_player.hand = [greenItemCard] ∧
    (sGreenItem.actOnBattle
        { atype := .use, origin := some 3, target := none }).map
      (fun s => (s.was_last_action_invalid, s.current_player.hand)) =
      some (true, []) := by
  refine ⟨by decide, ?_⟩
  simp [State.actOnBattle, State.tryBattleAction, State.doUse, State.findCard,
    State.sweepDead, State.checkEnd, sweepLane, State.current_player,
    State.opposing_player, State.player, State.setCurrent, State.setOpposing,
    State.setPlayerAt, sGreenItem, greenItemCard, PlayerOrder.opposing]

/-- C3 amended: a failing battle action leaves the game state unchanged
except for setting the last-action-invalid flag, with one exception: a
Use action that fails a validation performed after the unconditional
hand removal (wrong item-target pairing, or a non-item origin) leaves
the origin card removed from the acting player hand.  Summon and Attack
failures, and Use failures detected before the removal, are exactly
all-or-nothing. -/
theorem battle_failure_all_or_nothing (s : State) (a : Action) (s' : State)
    (hflag0 : s.was_last_action_invalid = false)
    (hdead : ∀ c ∈ s.players.1.lanes.1 ++ s.players.1.lanes.2 ++
        s.players.2.lanes.1 ++ s.players.2.lanes.2, c.is_dead = false)
    (hhp1 : 0 < s.players.1.health) (hhp2 : 0 < s.players.2.health)
    (hact : s.actOnBattle a = some s')
    (hfail : s'.was_last_action_invalid = true) :
    s' = ({ s with was_last_action_invalid := true } : State) ∨
    (a.atype = ActionType.use ∧ ∃ oid, a.origin = some oid ∧
      s' = ({ (s.setCurrent { s.current_player with
          hand := s.current_player.hand.eraseP
            (fun c => c.instance_id == oid) }) with
          was_last_action_invalid := true } : State)) := by
  unfold State.actOnBattle at hact
  cases htr : s.tryBattleAction a with
  | none => rw [htr] at hact; cases hact
  | some pr =>
    obtain ⟨s1, err?⟩ := pr
    rw [htr] at hact
    cases err? with
    | none =>
      simp only [Option.some.injEq] at hact
      subst hact
      have hfl : s1.was_last_action_invalid = s.was_last_action_invalid :=
        State.tryBattleAction_flag s a (s1, none) htr
      rw [State.checkEnd_flag, State.sweepDead_flag] at hfail
      simp only [State.setCurrent] at hfail
      rw [State.flag_setPlayerAt, hfl, hflag0] at hfail
      cases hfail
    | some e =>
      simp only [Option.some.injEq] at hact
      subst hact
      rcases State.tryBattleAction_fail s a s1 e htr with h1 | ⟨hu, oid, ho, h1⟩
      · left
        rw [h1]
        exact State.sweepCheck_of_flag s true hdead hhp1 hhp2
      · rw [h1]
        right
        refine ⟨hu, oid, ho, ?_⟩
        refine State.sweepCheck_of_flag _ true ?_ ?_ ?_
        · intro cc hcc
          apply hdead cc
          revert hcc
          cases hcur : s.current <;>
            simp [State.setCurrent, State.setPlayerAt, State.current_player,
              State.player, hcur] <;> tauto
        · cases hcur : s.current <;>
            simp [State.setCurrent, State.setPlayerAt, State.current_player,
              State.player, hcur] <;> omega
        · cases hcur : s.current <;>
            simp [State.setCurrent, State.setPlayerAt, State.current_player,
              State.player, hcur] <;> omega

/-- Concrete state produced by the failing green-item use on
`sGreenItem`: the flag is set and the item is gone from the hand. -/
def sGreenItemFailed : State :=
  { sGreenItem with
    was_last_action_invalid := true,
    players := ({ sGreenItem.players.1 with hand := ([] : List Card) },
                sGreenItem.players.2) }

/-- Witness for C3 at a concrete input: the failing no-target green-item
use lands in the second branch of the disjunction, the one recording the
hand removal. -/
theorem battle_failure_all_or_nothing_witness :
    sGreenItemFailed = ({ sGreenItem with was_last_action_invalid := true } : State) ∨
    ((Action.mk .use (some 3) none).atype = ActionType.use ∧
      ∃ oid, (Action.mk .use (some 3) none).origin = some oid ∧
      sGreenItemFailed = ({ (sGreenItem.setCurrent { sGreenItem.current_player with
          hand := sGreenItem.current_player.hand.eraseP
            (fun c => c.instance_id == oid) }) with
          was_last_action_invalid := true } : State)) :=
  battle_failure_all_or_nothing sGreenItem (Action.mk .use (some 3) none)
    sGreenItemFailed (by decide) (by decide) (by decide) (by decide)
    (by simp [State.actOnBattle, State.tryBattleAction, State.doUse,
          State.findCard, State.sweepDead, State.checkEnd, sweepLane,
          State.current_player, State.opposing_player, State.player,
          State.setCurrent, State.setOpposing, State.setPlayerAt, sGreenItem,
          sGreenItemFailed, greenItemCard, PlayerOrder.opposing])
    (by decide)

/-- C8 counterexample: applying an action to a concrete Ended-phase
state raises nothing; `State.act` returns normally with the state
unchanged apart from clearing the last-action-invalid flag, so the
engine itself never produces a game-already-ended error. -/
theorem act_on_ended_is_silent_counterexample :
    sEnded.act { atype := .pass } =
      some ({ sEnded with was_last_action_invalid := false } : State) :=
  State.act_ended_eq sEnded { atype := .pass } rfl

/-- C8 amended: in the Ended phase `State.act` silently does nothing
except clearing the last-action-invalid flag; the game-already-ended
error (GameIsEndedError) is raised one layer up, by the environment
wrapper step, before the engine is reached. -/
theorem act_on_ended_silent_env_raises (s : State) (a : Action)
    (h : s.phase = Phase.ended) :
    s.act a = some ({ s with was_last_action_invalid := false } : State) ∧
    LOCMBattleEnv.step s a = Except.error EnvError.gameIsEnded := by
  refine ⟨State.act_ended_eq s a h, ?_⟩
  simp [LOCMBattleEnv.step, battleIsFinished, h]

/-- Witness for C8 at a concrete input. -/
theorem act_on_ended_silent_env_raises_witness :
    sEnded.act { atype := .summon, origin := some 1, target := some 0 } =
      some ({ sEnded with was_last_action_invalid := false } : State) ∧
    LOCMBattleEnv.step sEnded { atype := .summon, origin := some 1, target := some 0 } =
      Except.error EnvError.gameIsEnded :=
  act_on_ended_silent_env_raises sEnded _ rfl

/-- C4 counterexample: in a concrete state with zero mana, attacking
with a creature whose cost is 3 succeeds (the invalid-action flag stays
clear and the creature is marked as having attacked) and no mana is
spent, so the insufficient-mana precheck does not apply to attacks. -/
theorem attack_ignores_mana_counterexample :
    costlyAttacker.cost = 3 ∧ sFreeAttack.current_player.mana = 0 ∧
    (sFreeAttack.actOnBattle
        { atype := .attack, origin := some 1, target := none }).map
      (fun s => (s.was_last_action_invalid, s.current_player.mana,
                 s.current_player.lanes.1.map Card.has_attacked_this_turn)) =
      some (false, 0, [true]) := by
  refine ⟨by decide, by decide, ?_⟩
  simp [State.actOnBattle, State.tryBattleAction, State.doAttack,
    State.findCard, State.sweepDead, State.checkEnd, sweepLane,
    Player.damage, Player.runeLoop, Creature.damage, updateByIid,
    State.current_player, State.opposing_player, State.player,
    State.setCurrent, State.setOpposing, State.setPlayerAt, Player.lane,
    Card.able_to_attack, Keywords.hasAbility, sFreeAttack, costlyAttacker,
    PlayerOrder.opposing]

/-- C4 amended: Summon and Use check affordability first, failing with
the insufficient-mana error and leaving the state untouched, and on
success debit exactly the origin cost; Attack performs no mana check at
all and never changes the acting player mana. -/
theorem mana_precheck_and_debit :
    (∀ (s : State) (o : Card) (t : Option Lane), o.cost > s.current_player.mana →
      s.doSummon o t = (s, some EngineError.notEnoughMana)) ∧
    (∀ (s : State) (o : Card) (t : Option Lane) (s' : State),
      s.doSummon o t = (s', none) →
      s'.current_player.mana = s.current_player.mana - o.cost) ∧
    (∀ (s : State) (o : Card) (t : Option Card), o.cost > s.current_player.mana →
      s.doUse o t = (s, some EngineError.notEnoughMana)) ∧
    (∀ (s : State) (o : Card) (t : Option Card) (s' : State),
      s.doUse o t = (s', none) →
      s'.current_player.mana = s.current_player.mana - o.cost) ∧
    (∀ (s : State) (o t : Option Card),
      (s.doAttack o t).1.current_player.mana = s.current_player.mana ∧
      (s.doAttack o t).2 ≠ some EngineError.notEnoughMana) := by
  refine ⟨?_, ?_, ?_, ?_, ?_⟩
  · intro s o t h
    simp only [State.doSummon]
    rw [if_pos h]
  · intro s o t s' h
    simp only [State.doSummon] at h
    repeat' split at h
    all_goals rw [Prod.mk.injEq] at h
    all_goals
      first
        | exact Option.noConfusion h.2
        | (obtain ⟨h1, h2⟩ := h
           subst h1
           simp [State.current_player_set2])
  · intro s o t h
    simp only [State.doUse]
    rw [if_pos h]
  · intro s o t s' h
    simp only [State.doUse] at h
    repeat' split at h
    all_goals rw [Prod.mk.injEq] at h
    all_goals
      first
        | exact Option.noConfusion h.2
        | (obtain ⟨h1, h2⟩ := h
           subst h1
           simp [State.current_player_set2])
  · intro s o t
    constructor
    · simp only [State.doAttack]
      repeat' split
      all_goals simp [State.current_player_set2, apply_ite Player.mana]
    · simp only [State.doAttack]
      repeat' split
      all_goals simp

/-- Witness for C4 at concrete inputs: summoning or using a cost-3 card
with zero mana fails with the insufficient-mana error, and a resolved
attack leaves the zero mana unchanged. -/
theorem mana_precheck_and_debit_witness :
    sFreeAttack.doSummon costlyAttacker (some Lane.left) =
      (sFreeAttack, some EngineError.notEnoughMana) ∧
    (sFreeAttack.doAttack (some costlyAttacker) none).1.current_player.mana =
      sFreeAttack.current_player.mana :=
  ⟨mana_precheck_and_debit.1 sFreeAttack costlyAttacker (some Lane.left) (by decide),
   (mana_precheck_and_debit.2.2.2.2 sFreeAttack (some costlyAttacker) none).1⟩

/-- C5 at the failing input: the attacker has Drain and Ward and deals 3
damage to the defender (defense 10 drops to 7), yet the attacking player
heals 0 instead of 3, because the Ward shield consumed by the
counterattack resets the recorded damage to zero. -/
theorem drain_with_ward_heals_zero :
    drainWardAttacker.keywords.hasAbility Ability.D = true ∧
    drainWardAttacker.attack = 3 ∧
    (sDrainWard.actOnBattle
        { atype := .attack, origin := some 1, target := some 2 }).map
      (fun s => (s.was_last_action_invalid, s.current_player.health,
                 s.opposing_player.lanes.1.map Card.defense)) =
      some (false, 30, [7]) := by
  refine ⟨by decide, by decide, ?_⟩
  simp [State.actOnBattle, State.tryBattleAction, State.doAttack,
    State.findCard, State.sweepDead, State.checkEnd, sweepLane,
    Player.damage, Player.runeLoop, Creature.damage, updateByIid,
    Keywords.remove, State.current_player, State.opposing_player,
    State.player, State.setCurrent, State.setOpposing, State.setPlayerAt,
    Player.lane, Card.able_to_attack, Keywords.hasAbility, sDrainWard,
    drainWardAttacker, bigDefender, PlayerOrder.opposing]

end Locm
